import Mathlib

/-!
Verification of the polymorphic content model and tag-dispatch decoding engine
of a typed Notion API client (source: src/lib.rs).

The development shallowly embeds the decoding core:
  * `Json` models `serde_json::Value`; numbers are modelled as integers since
    no verified property depends on floating-point semantics.
  * Each `TryFrom<Value>` impl of the source becomes a Lean function on `Json`.
  * serde-derived `Deserialize` impls become `jd*` functions returning
    `Except String _` (the String standing for a `serde_json::Error` message;
    concrete message texts are abstracted, their presence/absence is not).
  * Rust panics (`unwrap`/`expect` on upstream data) are modelled by a
    dedicated `PResult.panic` outcome on the decoders that contain them.
  * The chrono date parsing/formatting used by `DateValue` is modelled by an
    explicit RFC 3339 parser/renderer over character lists.
-/

set_option linter.unusedVariables false
set_option linter.unreachableTactic false
set_option linter.unusedTactic false

namespace NotionClient

/-- Model of `serde_json::Value`. Numbers carry an `Int`; none of the verified
properties inspects float semantics. Objects are the (key-sorted, duplicate-free)
entry list of serde_json's map; `get` is key lookup. -/
inductive Json where
  | null : Json
  | bool (b : Bool) : Json
  | num (n : Int) : Json
  | str (s : String) : Json
  | arr (xs : List Json) : Json
  | obj (fields : List (String × Json)) : Json
deriving Inhabited

namespace Json

/-- Field lookup in an object's entry list (first match; keys are unique). -/
def lookupField : List (String × Json) → String → Option Json
  | [], _ => none
  | (k, v) :: rest, key => if k = key then some v else lookupField rest key

/-- `Value::get(key)`: `Some` only on objects having the key. -/
def get (j : Json) (key : String) : Option Json :=
  match j with
  | .obj fields => lookupField fields key
  | _ => none

theorem sizeOf_lookupField_lt (fields : List (String × Json)) (key : String)
    (v : Json) (h : lookupField fields key = some v) : sizeOf v < sizeOf fields := by
  induction fields with
  | nil => simp [lookupField] at h
  | cons e rest ih =>
      obtain ⟨k, w⟩ := e
      by_cases hk : k = key
      · simp [lookupField, hk] at h
        subst h
        simp
        omega
      · simp [lookupField, hk] at h
        have := ih h
        simp
        omega

theorem sizeOf_get_lt (j : Json) (key : String) (v : Json)
    (h : j.get key = some v) : sizeOf v < sizeOf j := by
  cases j <;> simp [get] at h
  case obj fields =>
    have := sizeOf_lookupField_lt fields key v h
    simp
    omega

theorem sizeOf_mem_lt (xs : List Json) (x : Json) (h : x ∈ xs) :
    sizeOf x < sizeOf (Json.arr xs) := by
  have := List.sizeOf_lt_of_mem h
  simp
  omega

end Json

/-- Model of the library's `Error` enum. `reqwest::Error` (first field of
`Http`) is modelled by `ReqErr`, `serde_json::Error` and `chrono::ParseError`
by their message strings. -/
inductive ReqErr where
  | status (code : Nat) : ReqErr
  | decode : ReqErr
deriving DecidableEq

inductive Error where
  | Http (e : ReqErr) (body : Option Json) : Error
  | Deserialization (msg : String) (body : Option Json) : Error
  | Header : Error
  | ChronoParse (msg : String) : Error
  | NoSuchProperty (key : String) : Error

/-- Result of a decoder that contains reachable `unwrap`/`expect` calls on
upstream data: `panic` models the Rust panic outcome. -/
inductive PResult (α : Type) where
  | ok (a : α) : PResult α
  | error (e : Error) : PResult α
  | panic : PResult α

/-- Rendering of `Error`'s `Display` impl (`NotionError::{:?}`); the debug
payload is abbreviated to the constructor name, which no verified property
inspects. -/
def Error.show : Error → String
  | .Http _ _ => "NotionError::Http"
  | .Deserialization _ _ => "NotionError::Deserialization"
  | .Header => "NotionError::Header"
  | .ChronoParse _ => "NotionError::ChronoParse"
  | .NoSuchProperty k => "NotionError::NoSuchProperty(\x7b" ++ k ++ "\x7d)"

/-- serde: deserialize a `String`. -/
def jdString : Json → Except String String
  | .str s => .ok s
  | _ => .error "invalid type: expected a string"

/-- serde: deserialize a `bool`. -/
def jdBool : Json → Except String Bool
  | .bool b => .ok b
  | _ => .error "invalid type: expected a boolean"

/-- serde: deserialize an `f64` (numeric payloads are abstracted to `Int`). -/
def jdNumber : Json → Except String Int
  | .num n => .ok n
  | _ => .error "invalid type: expected a number"

/-- serde: deserialize `Option<T>`: `null` is `None`, otherwise `Some`. -/
def jdOpt (dec : Json → Except String α) : Json → Except String (Option α)
  | .null => .ok none
  | v => (dec v).map some

/-- serde: deserialize `Vec<T>` from an array, elementwise. -/
def jdElems (dec : Json → Except String α) : List Json → Except String (List α)
  | [] => .ok []
  | x :: xs => do
      let a ← dec x
      let as ← jdElems dec xs
      .ok (a :: as)

def jdArr (dec : Json → Except String α) : Json → Except String (List α)
  | .arr xs => jdElems dec xs
  | _ => .error "invalid type: expected an array"

/-- serde struct field access: a required field (missing field = error). -/
def jfield (j : Json) (key : String) (dec : Json → Except String α) :
    Except String α :=
  match j.get key with
  | none => .error ("missing field " ++ key)
  | some v => dec v

/-- serde struct field access: an `Option<T>` field (absent or `null` = `None`). -/
def jfieldOpt (j : Json) (key : String) (dec : Json → Except String α) :
    Except String (Option α) :=
  match j.get key with
  | none => .ok none
  | some .null => .ok none
  | some v => (dec v).map some

/- ----------------------------------------------------------------
   Date disambiguation & formatting (src/lib.rs:1028-1074, a model of the
   chrono RFC 3339 parser/renderer the source delegates to).
---------------------------------------------------------------- -/

/-- ASCII digit test (`\d` of the `ISO_8601_DATE` regex / chrono's scanner). -/
def isDig (c : Char) : Bool := 48 ≤ c.toNat && c.toNat ≤ 57

def digitVal (c : Char) : Nat := c.toNat - 48

def digitChar : Nat → Char
  | 0 => '0' | 1 => '1' | 2 => '2' | 3 => '3' | 4 => '4'
  | 5 => '5' | 6 => '6' | 7 => '7' | 8 => '8' | 9 => '9'
  | _ => '*'

/-- Scan exactly two ASCII digits. -/
def read2 : List Char → Option (Nat × List Char)
  | a :: b :: rest =>
      if isDig a && isDig b then some (digitVal a * 10 + digitVal b, rest) else none
  | _ => none

/-- Scan exactly four ASCII digits. -/
def read4 : List Char → Option (Nat × List Char)
  | a :: b :: c :: d :: rest =>
      if isDig a && isDig b && isDig c && isDig d then
        some (((digitVal a * 10 + digitVal b) * 10 + digitVal c) * 10 + digitVal d, rest)
      else none
  | _ => none

def expectCh (c : Char) : List Char → Option (List Char)
  | x :: rest => if x = c then some rest else none
  | _ => none

/-- Value of a fractional-second digit run: the first nine digits, scaled to
nanoseconds (further digits are consumed and ignored, as chrono does). -/
def fracVal (ds : List Char) : Nat :=
  (ds.take 9).foldl (fun a c => a * 10 + digitVal c) 0 * 10 ^ (9 - min ds.length 9)

/-- Optional `.digits` fraction; a bare `.` is a parse error. -/
def readFrac : List Char → Option (Nat × List Char)
  | '.' :: rest =>
      let ds := rest.takeWhile isDig
      if ds.isEmpty then none else some (fracVal ds, rest.dropWhile isDig)
  | cs => some (0, cs)

/-- `±HH:MM` magnitude in minutes, with the RFC 3339 bounds. -/
def readOffMag (cs : List Char) : Option (Nat × List Char) := do
  let (hh, cs) ← read2 cs
  let cs ← expectCh ':' cs
  let (mm, cs) ← read2 cs
  if hh ≤ 23 ∧ mm ≤ 59 then some (hh * 60 + mm, cs) else none

/-- UTC offset: `Z`/`z` or a signed `HH:MM`, in minutes. -/
def readOffset : List Char → Option (Int × List Char)
  | 'Z' :: rest => some (0, rest)
  | 'z' :: rest => some (0, rest)
  | '+' :: rest => (readOffMag rest).map (fun p => ((p.1 : Int), p.2))
  | '-' :: rest => (readOffMag rest).map (fun p => (-(p.1 : Int), p.2))
  | _ => none

/-- Proleptic Gregorian leap year (astronomical year numbering, as chrono). -/
def isLeap (y : Int) : Bool := y % 4 = 0 && (y % 100 ≠ 0 || y % 400 = 0)

def daysInMonth (y : Int) (m : Nat) : Nat :=
  match m with
  | 1 => 31 | 2 => if isLeap y then 29 else 28 | 3 => 31 | 4 => 30 | 5 => 31
  | 6 => 30 | 7 => 31 | 8 => 31 | 9 => 30 | 10 => 31 | 11 => 30 | 12 => 31
  | _ => 0

/-- The fields of a parsed RFC 3339 timestamp (`DateTime<FixedOffset>`):
civil date-time in the carried offset plus that offset in minutes. After the
leap-second folding `second ≤ 59`, and `nanos ≥ 10^9` only on a leap second. -/
structure Rfc3339Parts where
  year : Nat
  month : Nat
  day : Nat
  hour : Nat
  minute : Nat
  second : Nat
  nanos : Nat
  offMinutes : Int
deriving DecidableEq, Repr

/-- The date-time separator accepted by chrono's RFC 3339 parser. -/
def isSep (c : Char) : Bool := c = 'T' || c = 't' || c = ' '

/-- Model of `chrono::DateTime::parse_from_rfc3339`: full-string parse of
`YYYY-MM-DD<sep>HH:MM:SS[.frac](Z|±HH:MM)` with range validation and
leap-second (`SS = 60`) folding into nanoseconds of second 59. -/
def parseRfc3339 (cs : List Char) : Option Rfc3339Parts := do
  let (y, cs) ← read4 cs
  let cs ← expectCh '-' cs
  let (mo, cs) ← read2 cs
  let cs ← expectCh '-' cs
  let (d, cs) ← read2 cs
  match cs with
  | [] => none
  | c :: cs =>
      if isSep c then do
        let (h, cs) ← read2 cs
        let cs ← expectCh ':' cs
        let (mi, cs) ← read2 cs
        let cs ← expectCh ':' cs
        let (s, cs) ← read2 cs
        let (nf, cs) ← readFrac cs
        let (off, cs) ← readOffset cs
        if cs = [] ∧ 1 ≤ mo ∧ mo ≤ 12 ∧ 1 ≤ d ∧ d ≤ daysInMonth (y : Int) mo ∧
            h ≤ 23 ∧ mi ≤ 59 ∧ s ≤ 60 then
          if s = 60 then some ⟨y, mo, d, h, mi, 59, nf + 1000000000, off⟩
          else some ⟨y, mo, d, h, mi, s, nf, off⟩
        else none
      else none

/-- A civil UTC date-time: the observable content of `DateTime<Utc>`. Two
instants are identical iff their civil UTC representations are equal. -/
structure CivilTime where
  year : Int
  month : Nat
  day : Nat
  hour : Nat
  minute : Nat
  second : Nat
  nanos : Nat
deriving DecidableEq, Repr

def prevDay (y : Int) (m d : Nat) : Int × Nat × Nat :=
  if 1 < d then (y, m, d - 1)
  else if 1 < m then (y, m - 1, daysInMonth y (m - 1))
  else (y - 1, 12, 31)

def nextDay (y : Int) (m d : Nat) : Int × Nat × Nat :=
  if d < daysInMonth y m then (y, m, d + 1)
  else if m < 12 then (y, m + 1, 1)
  else (y + 1, 1, 1)

/-- `DateTime::with_timezone(&Utc)`: subtract the offset (whole minutes, so
seconds and nanos are untouched), rolling the civil date by at most one day. -/
def utcCivil (p : Rfc3339Parts) : CivilTime :=
  let t : Int := ((p.hour * 60 + p.minute : Nat) : Int) - p.offMinutes
  if t < 0 then
    let n := (t + 1440).toNat
    match prevDay (p.year : Int) p.month p.day with
    | (y, m, d) => ⟨y, m, d, n / 60, n % 60, p.second, p.nanos⟩
  else if 1440 ≤ t then
    let n := (t - 1440).toNat
    match nextDay (p.year : Int) p.month p.day with
    | (y, m, d) => ⟨y, m, d, n / 60, n % 60, p.second, p.nanos⟩
  else
    let n := t.toNat
    ⟨(p.year : Int), p.month, p.day, n / 60, n % 60, p.second, p.nanos⟩

def pad2 (n : Nat) : List Char := [digitChar (n / 10 % 10), digitChar (n % 10)]

def pad3 (n : Nat) : List Char :=
  [digitChar (n / 100 % 10), digitChar (n / 10 % 10), digitChar (n % 10)]

def pad4 (n : Nat) : List Char :=
  [digitChar (n / 1000 % 10), digitChar (n / 100 % 10),
   digitChar (n / 10 % 10), digitChar (n % 10)]

def pad6 (n : Nat) : List Char := pad3 (n / 1000) ++ pad3 (n % 1000)

def pad9 (n : Nat) : List Char :=
  pad3 (n / 1000000) ++ pad3 (n / 1000 % 1000) ++ pad3 (n % 1000)

/-- Decimal digits of a natural number (no padding). -/
def natDigits (n : Nat) : List Char :=
  if _h : n < 10 then [digitChar n]
  else natDigits (n / 10) ++ [digitChar (n % 10)]
decreasing_by exact Nat.div_lt_self (by omega) (by omega)

def padMin4 (n : Nat) : List Char := if n ≤ 9999 then pad4 n else natDigits n

/-- chrono's year rendering: four digits inside 0..=9999, otherwise the
ISO 8601 expanded form with an explicit sign (`{:+05}`). -/
def yearChars (y : Int) : List Char :=
  if 0 ≤ y ∧ y ≤ 9999 then pad4 y.toNat
  else if y < 0 then '-' :: padMin4 (-y).toNat
  else '+' :: padMin4 y.toNat

/-- chrono `%.f` / `SecondsFormat::AutoSi`: empty for zero nanos, else 3, 6 or
9 fractional digits. -/
def fracChars (n : Nat) : List Char :=
  if n = 0 then []
  else if n % 1000000 = 0 then '.' :: pad3 (n / 1000000)
  else if n % 1000 = 0 then '.' :: pad6 (n / 1000)
  else '.' :: pad9 n

/-- Seconds + fraction; a leap second (nanos ≥ 10^9) prints as second 60. -/
def secondChars (s nanos : Nat) : List Char :=
  if 1000000000 ≤ nanos then pad2 (s + 1) ++ fracChars (nanos - 1000000000)
  else pad2 s ++ fracChars nanos

/-- `DateTime<Utc>::to_rfc3339` (offset rendered as `+00:00`). -/
def renderCivil (c : CivilTime) : List Char :=
  yearChars c.year ++ '-' :: pad2 c.month ++ '-' :: pad2 c.day ++
  'T' :: pad2 c.hour ++ ':' :: pad2 c.minute ++ ':' ::
  secondChars c.second c.nanos ++ ['+', '0', '0', ':', '0', '0']

/-- The `ISO_8601_DATE` regex `^\d{4}-\d{2}-\d{2}$` (src/lib.rs:15). -/
def isBareDate : List Char → Bool
  | [a, b, c, d, e, f, g, h, i, j] =>
      isDig a && isDig b && isDig c && isDig d && e = '-' &&
      isDig f && isDig g && h = '-' && isDig i && isDig j
  | _ => false

/-- `DateValue` (src/lib.rs:1030): a `DateTime<Utc>` (kept as its civil UTC
representation) or a bare `NaiveDate`. -/
inductive DateValue where
  | DateTime (t : CivilTime) : DateValue
  | Date (year month day : Nat) : DateValue
deriving DecidableEq, Repr

/-- chrono parse-error messages are abstracted to one constant. -/
def chronoMsg : String := "chrono parse error"

/-- `DateValue::try_from (String)` (src/lib.rs:1035): bare dates are parsed by
appending `T00:00:00Z` and taking `date_naive` (the civil date at offset Z);
anything else is parsed as a full RFC 3339 timestamp and normalized to UTC. -/
def DateValue.fromChars (cs : List Char) : Except Error DateValue :=
  if isBareDate cs then
    match parseRfc3339 (cs ++ ['T', '0', '0', ':', '0', '0', ':', '0', '0', 'Z']) with
    | some p => .ok (.Date p.year p.month p.day)
    | none => .error (.ChronoParse chronoMsg)
  else
    match parseRfc3339 cs with
    | some p => .ok (.DateTime (utcCivil p))
    | none => .error (.ChronoParse chronoMsg)

def DateValue.fromString (s : String) : Except Error DateValue := fromChars s.data

/-- `Display for DateValue` (src/lib.rs:1062): a bare date renders as its
midnight-UTC RFC 3339 form; a timestamp as its UTC RFC 3339 form. -/
def DateValue.renderChars : DateValue → List Char
  | .Date y m d => renderCivil ⟨(y : Int), m, d, 0, 0, 0, 0⟩
  | .DateTime t => renderCivil t

def DateValue.render (v : DateValue) : String := ⟨v.renderChars⟩

/-- serde for `DateValue` (`#[serde(try_from = "String")]`). -/
def jdDateValue : Json → Except String DateValue
  | .str s =>
      match DateValue.fromString s with
      | .ok v => .ok v
      | .error e => .error e.show
  | _ => .error "invalid type: expected a string"

/-- The library's `parse` helper (src/lib.rs:65):
`data.get(key)` or `NoSuchProperty`, then deserialization with the error
wrapped as `Deserialization(err, Some(data))`. -/
def parseWith (dec : Json → Except String α) (key : String) (data : Json) :
    Except Error α :=
  match data.get key with
  | none => .error (.NoSuchProperty key)
  | some v =>
      match dec v with
      | .ok a => .ok a
      | .error msg => .error (.Deserialization msg (some data))

/-- Models `serde_json::from_value::<T>(data)?` for a `try_from = "Value"` type:
the inner `Error` passes through serde as a custom message and re-enters via
`From<serde_json::Error>` as `Deserialization(msg, None)`. -/
def viaSerde (r : Except Error α) : Except Error α :=
  match r with
  | .ok a => .ok a
  | .error e => .error (.Deserialization e.show none)

/- ----------------------------------------------------------------
   Leaf value types (src/lib.rs:1076-1120, 876-887, 846-874, 498-602).
---------------------------------------------------------------- -/

inductive Color where
  | Default | Gray | Brown | Orange | Yellow | Green | Blue | Purple | Pink | Red
  | GrayBackground | BrownBackground | OrangeBackground | YellowBackground
  | GreenBackground | BlueBackground | PurpleBackground | PinkBackground | RedBackground
deriving DecidableEq, Repr

/-- serde for `Color` (`rename_all = "snake_case"`, unit variants). -/
def jdColor : Json → Except String Color
  | .str s =>
      match s with
      | "default" => .ok .Default
      | "gray" => .ok .Gray
      | "brown" => .ok .Brown
      | "orange" => .ok .Orange
      | "yellow" => .ok .Yellow
      | "green" => .ok .Green
      | "blue" => .ok .Blue
      | "purple" => .ok .Purple
      | "pink" => .ok .Pink
      | "red" => .ok .Red
      | "gray_background" => .ok .GrayBackground
      | "brown_background" => .ok .BrownBackground
      | "orange_background" => .ok .OrangeBackground
      | "yellow_background" => .ok .YellowBackground
      | "green_background" => .ok .GreenBackground
      | "blue_background" => .ok .BlueBackground
      | "purple_background" => .ok .PurpleBackground
      | "pink_background" => .ok .PinkBackground
      | "red_background" => .ok .RedBackground
      | _ => .error "unknown variant of Color"
  | _ => .error "invalid type: expected a string"

structure Annotations where
  bold : Bool
  italic : Bool
  strikethrough : Bool
  underline : Bool
  code : Bool
  color : Color
deriving DecidableEq, Repr

def jdAnnotations (j : Json) : Except String Annotations :=
  match j with
  | .obj _ => do
      let bold ← jfield j "bold" jdBool
      let italic ← jfield j "italic" jdBool
      let strikethrough ← jfield j "strikethrough" jdBool
      let underline ← jfield j "underline" jdBool
      let code ← jfield j "code" jdBool
      let color ← jfield j "color" jdColor
      .ok ⟨bold, italic, strikethrough, underline, code, color⟩
  | _ => .error "invalid type: expected struct Annotations"

structure Link where
  url : String
deriving DecidableEq, Repr

def jdLink (j : Json) : Except String Link :=
  match j with
  | .obj _ => (jfield j "url" jdString).map Link.mk
  | _ => .error "invalid type: expected struct Link"

structure SelectOption where
  id : String
  name : String
  color : Color
deriving DecidableEq, Repr

def jdSelectOption (j : Json) : Except String SelectOption :=
  match j with
  | .obj _ => do
      let id ← jfield j "id" jdString
      let name ← jfield j "name" jdString
      let color ← jfield j "color" jdColor
      .ok ⟨id, name, color⟩
  | _ => .error "invalid type: expected struct SelectOption"

/-- `Select(pub Option<SelectOption>)` (src/lib.rs:848). -/
structure Select where
  opt : Option SelectOption
deriving DecidableEq, Repr

/-- `Select::try_from` (src/lib.rs:850): the whole fragment deserialized as
`Option<SelectOption>`; the serde error enters via `From` with no body. -/
def decodeSelect (j : Json) : Except Error Select :=
  match jdOpt jdSelectOption j with
  | .ok o => .ok ⟨o⟩
  | .error m => .error (.Deserialization m none)

def jdSelect (j : Json) : Except String Select :=
  (decodeSelect j).mapError Error.show

/-- `MultiSelect(pub Vec<SelectOption>)` (src/lib.rs:860). -/
structure MultiSelect where
  options : List SelectOption
deriving DecidableEq, Repr

/-- `MultiSelect::try_from` (src/lib.rs:862): an array is the option list, an
object is read through its `options` field, anything else is the empty list. -/
def decodeMultiSelect (j : Json) : Except Error MultiSelect :=
  match j with
  | .arr _ =>
      match jdArr jdSelectOption j with
      | .ok os => .ok ⟨os⟩
      | .error m => .error (.Deserialization m none)
  | .obj _ =>
      match parseWith (jdArr jdSelectOption) "options" j with
      | .ok os => .ok ⟨os⟩
      | .error e => .error e
  | _ => .ok ⟨[]⟩

def jdMultiSelect (j : Json) : Except String MultiSelect :=
  (decodeMultiSelect j).mapError Error.show

inductive CodeLanguage where
  | ABAP | Arduino | Bash | Basic | C | Clojure | CoffeeScript | Cpp | CSharp
  | CSS | Dart | Diff | Docker | Elixer | Elm | Erlang | Flow | Fortan | FSharp
  | Gherkin | GLSL | Go | GraphQL | Groovy | Haskell | HTML | Java | JavaScript
  | JSON | Julia | Kotlin | Latex | Less | Lisp | LiveScript | Lua | MakeFile
  | Markdown | Markup | Matlab | Mermaid | Nix | ObjectiveC | OCaml | Pascal
  | Perl | PHP | PlainText | PowerShell | Prolog | Protobuf | Python | R
  | Reason | Ruby | Rust | Sass | Scala | Scheme | SCSS | Shell | SQL | Swift
  | TypeScript | VBNet | Verilog | VHDL | VisualBasic | WebAssembly | XML
  | YAML | JavaCCppCSharp
deriving DecidableEq, Repr

/-- serde for `CodeLanguage` (`rename_all = "snake_case"` plus the explicit
per-variant renames of src/lib.rs:498-602). -/
def jdCodeLanguage : Json → Except String CodeLanguage
  | .str s =>
      match s with
      | "abap" => .ok .ABAP
      | "arduino" => .ok .Arduino
      | "bash" => .ok .Bash
      | "basic" => .ok .Basic
      | "c" => .ok .C
      | "clojure" => .ok .Clojure
      | "coffeescript" => .ok .CoffeeScript
      | "c++" => .ok .Cpp
      | "c#" => .ok .CSharp
      | "css" => .ok .CSS
      | "dart" => .ok .Dart
      | "diff" => .ok .Diff
      | "docker" => .ok .Docker
      | "elixer" => .ok .Elixer
      | "elm" => .ok .Elm
      | "erlang" => .ok .Erlang
      | "flow" => .ok .Flow
      | "fortan" => .ok .Fortan
      | "f#" => .ok .FSharp
      | "gherkin" => .ok .Gherkin
      | "glsl" => .ok .GLSL
      | "go" => .ok .Go
      | "graphql" => .ok .GraphQL
      | "groovy" => .ok .Groovy
      | "haskell" => .ok .Haskell
      | "html" => .ok .HTML
      | "java" => .ok .Java
      | "javascript" => .ok .JavaScript
      | "json" => .ok .JSON
      | "julia" => .ok .Julia
      | "kotlin" => .ok .Kotlin
      | "latex" => .ok .Latex
      | "less" => .ok .Less
      | "lisp" => .ok .Lisp
      | "livescript" => .ok .LiveScript
      | "lua" => .ok .Lua
      | "makefile" => .ok .MakeFile
      | "markdown" => .ok .Markdown
      | "markup" => .ok .Markup
      | "matlab" => .ok .Matlab
      | "mermaid" => .ok .Mermaid
      | "nix" => .ok .Nix
      | "objective-c" => .ok .ObjectiveC
      | "ocaml" => .ok .OCaml
      | "pascal" => .ok .Pascal
      | "perl" => .ok .Perl
      | "php" => .ok .PHP
      | "plain text" => .ok .PlainText
      | "powershell" => .ok .PowerShell
      | "prolog" => .ok .Prolog
      | "protobuf" => .ok .Protobuf
      | "python" => .ok .Python
      | "r" => .ok .R
      | "reason" => .ok .Reason
      | "ruby" => .ok .Ruby
      | "rust" => .ok .Rust
      | "sass" => .ok .Sass
      | "scala" => .ok .Scala
      | "scheme" => .ok .Scheme
      | "scss" => .ok .SCSS
      | "shell" => .ok .Shell
      | "sql" => .ok .SQL
      | "swift" => .ok .Swift
      | "typescript" => .ok .TypeScript
      | "vb.net" => .ok .VBNet
      | "verilog" => .ok .Verilog
      | "vhdl" => .ok .VHDL
      | "visual basic" => .ok .VisualBasic
      | "webassembly" => .ok .WebAssembly
      | "xml" => .ok .XML
      | "yaml" => .ok .YAML
      | "java/c/c++/c#" => .ok .JavaCCppCSharp
      | _ => .error "unknown variant of CodeLanguage"
  | _ => .error "invalid type: expected a string"

/- ----------------------------------------------------------------
   Users, partial references, rich text, mentions
   (src/lib.rs:614-630, 678-681, 889-1026, 1076-1084).
---------------------------------------------------------------- -/

structure Person where
  email : String
deriving DecidableEq, Repr

def jdPerson (j : Json) : Except String Person :=
  match j with
  | .obj _ => (jfield j "email" jdString).map Person.mk
  | _ => .error "invalid type: expected struct Person"

structure User where
  id : String
  name : Option String
  person : Option Person
  avatar_url : Option String
deriving DecidableEq, Repr

def jdUser (j : Json) : Except String User :=
  match j with
  | .obj _ => do
      let id ← jfield j "id" jdString
      let name ← jfieldOpt j "name" jdString
      let person ← jfieldOpt j "person" jdPerson
      let avatar_url ← jfieldOpt j "avatar_url" jdString
      .ok ⟨id, name, person, avatar_url⟩
  | _ => .error "invalid type: expected struct User"

structure PartialUser where
  id : String
deriving DecidableEq, Repr

def jdPartialUser (j : Json) : Except String PartialUser :=
  match j with
  | .obj _ => (jfield j "id" jdString).map PartialUser.mk
  | _ => .error "invalid type: expected struct PartialUser"

structure PartialPage where
  id : String
deriving DecidableEq, Repr

def jdPartialPage (j : Json) : Except String PartialPage :=
  match j with
  | .obj _ => (jfield j "id" jdString).map PartialPage.mk
  | _ => .error "invalid type: expected struct PartialPage"

structure PartialDatabase where
  id : String
deriving DecidableEq, Repr

def jdPartialDatabase (j : Json) : Except String PartialDatabase :=
  match j with
  | .obj _ => (jfield j "id" jdString).map PartialDatabase.mk
  | _ => .error "invalid type: expected struct PartialDatabase"

structure PartialBlock where
  id : String
deriving DecidableEq, Repr

structure LinkPreview where
  url : String
deriving DecidableEq, Repr

def jdLinkPreview (j : Json) : Except String LinkPreview :=
  match j with
  | .obj _ => (jfield j "url" jdString).map LinkPreview.mk
  | _ => .error "invalid type: expected struct LinkPreview"

/-- `Date` (src/lib.rs:1009): serde-derived; `end_` models the `end` field. -/
structure Date where
  start : DateValue
  end_ : Option DateValue
  time_zone : Option String
deriving DecidableEq, Repr

def jdDate (j : Json) : Except String Date :=
  match j with
  | .obj _ => do
      let start ← jfield j "start" jdDateValue
      let end_ ← jfieldOpt j "end" jdDateValue
      let time_zone ← jfieldOpt j "time_zone" jdString
      .ok ⟨start, end_, time_zone⟩
  | _ => .error "invalid type: expected struct Date"

structure Equation where
  plain_text : String
deriving DecidableEq, Repr

def jdEquation (j : Json) : Except String Equation :=
  match j with
  | .obj _ => (jfield j "plain_text" jdString).map Equation.mk
  | _ => .error "invalid type: expected struct Equation"

structure Text where
  content : String
  link : Option Link
  plain_text : String
  href : Option String
  annotations : Annotations
deriving DecidableEq, Repr

/-- `Text::try_from` (src/lib.rs:929): requires the `text` sub-object; `link`
is read from `text` only when `text.link` is a string (and `href` from `data`
only when `text.href` is a string), exactly as the source's `if let`s. -/
def decodeText (data : Json) : Except Error Text :=
  match data.get "text" with
  | none => .error (.NoSuchProperty "text")
  | some text => do
      let content ← parseWith jdString "content" text
      let link ← (match text.get "link" with
        | some (.str _) => (parseWith jdLink "link" text).map some
        | _ => pure none)
      let plain_text ← parseWith jdString "plain_text" data
      let href ← (match text.get "href" with
        | some (.str _) => (parseWith jdString "href" data).map some
        | _ => pure none)
      let annotations ← parseWith jdAnnotations "annotations" data
      .ok ⟨content, link, plain_text, href, annotations⟩

inductive Mention where
  | User (u : User) : Mention
  | Page (p : PartialPage) : Mention
  | Database (d : PartialDatabase) : Mention
  | Date (d : Date) : Mention
  | LinkPreview (l : LinkPreview) : Mention
  | Unsupported (tag : String) (raw : Json) : Mention

/-- `Mention::try_from` (src/lib.rs:968): the discriminator lives inside the
required `mention` sub-object; the fallback keeps the whole fragment. -/
def decodeMention (data : Json) : Except Error Mention :=
  match data.get "mention" with
  | none => .error (.NoSuchProperty "mention")
  | some mention => do
      let tag ← parseWith jdString "type" mention
      match tag with
      | "user" => (parseWith jdUser "user" mention).map .User
      | "page" => (parseWith jdPartialPage "page" mention).map .Page
      | "date" => (parseWith jdDate "date" mention).map .Date
      | "database" => (parseWith jdPartialDatabase "database" mention).map .Database
      | "link_preview" => (parseWith jdLinkPreview "link_preview" mention).map .LinkPreview
      | key => .ok (.Unsupported key data)

inductive RichText where
  | Text (t : Text) (plain : String) : RichText
  | Mention (m : Mention) (plain : String) : RichText
  | Equation (e : Equation) (plain : String) : RichText
  | Unsupported (tag : String) (raw : Json) : RichText

/-- `RichText::try_from` (src/lib.rs:898): `plain_text` defaults to `""` when
absent or non-string; the payload deserializers run on the whole fragment. -/
def decodeRichText (data : Json) : Except Error RichText :=
  let plain_text := match data.get "plain_text" with
    | some (.str s) => s
    | _ => ""
  do
    let tag ← parseWith jdString "type" data
    match tag with
    | "text" => (viaSerde (decodeText data)).map (fun t => .Text t plain_text)
    | "mention" => (viaSerde (decodeMention data)).map (fun m => .Mention m plain_text)
    | "equation" =>
        (match jdEquation data with
          | .ok e => .ok (RichText.Equation e plain_text)
          | .error m => .error (.Deserialization m none))
    | key => .ok (.Unsupported key data)

def jdRichText (j : Json) : Except String RichText :=
  (decodeRichText j).mapError Error.show

/- ----------------------------------------------------------------
   Parent, File, Icon, Formula (src/lib.rs:1226-1304, 820-844).
---------------------------------------------------------------- -/

inductive Parent where
  | Page (p : PartialPage) : Parent
  | Database (d : PartialDatabase) : Parent
  | Block (b : PartialBlock) : Parent
  | Workspace (b : Bool) : Parent
  | Unsupported (tag : String) (raw : Json) : Parent

/-- `Parent::try_from` (src/lib.rs:1236). The source re-reads the `type`
string to use it as the payload key; the literal keys are identical. -/
def decodeParent (data : Json) : Except Error Parent := do
  let tag ← parseWith jdString "type" data
  match tag with
  | "page_id" => (parseWith jdString "page_id" data).map (fun id => .Page ⟨id⟩)
  | "database_id" => (parseWith jdString "database_id" data).map (fun id => .Database ⟨id⟩)
  | "block_id" => (parseWith jdString "block_id" data).map (fun id => .Block ⟨id⟩)
  | "workspace" => (parseWith jdBool "workspace" data).map .Workspace
  | key => .ok (.Unsupported key data)

def jdParent (j : Json) : Except String Parent :=
  (decodeParent j).mapError Error.show

inductive File where
  | Notion (url : String) (expiry : DateValue) : File
  | External (url : String) : File
  | Unsupported (tag : String) (raw : Json) : File

/-- `File::try_from` (src/lib.rs:1261). The missing-`external` error carries
the key `"file"`, exactly as the source does. -/
def decodeFile (data : Json) : Except Error File := do
  let tag ← parseWith jdString "type" data
  match tag with
  | "file" =>
      match data.get "file" with
      | none => .error (.NoSuchProperty "file")
      | some file => do
          let url ← parseWith jdString "url" file
          let expiry ← parseWith jdDateValue "expiry_time" file
          .ok (.Notion url expiry)
  | "external" =>
      match data.get "external" with
      | none => .error (.NoSuchProperty "file")
      | some ext => (parseWith jdString "url" ext).map .External
  | key => .ok (.Unsupported key data)

def jdFile (j : Json) : Except String File :=
  (decodeFile j).mapError Error.show

inductive Icon where
  | File (f : File) : Icon
  | Emoji (e : String) : Icon
  | Unsupported (tag : String) (raw : Json) : Icon

/-- `Icon::try_from` (src/lib.rs:1292): the `file` arm re-deserializes the
whole fragment as a `File` through serde. -/
def decodeIcon (data : Json) : Except Error Icon := do
  let tag ← parseWith jdString "type" data
  match tag with
  | "file" => (viaSerde (decodeFile data)).map .File
  | "emoji" => (parseWith jdString "emoji" data).map .Emoji
  | key => .ok (.Unsupported key data)

def jdIcon (j : Json) : Except String Icon :=
  (decodeIcon j).mapError Error.show

inductive Formula where
  | String (s : Option String) : Formula
  | Number (n : Option Int) : Formula
  | Boolean (b : Option Bool) : Formula
  | Date (d : Option Date) : Formula
  | Unsupported (tag : String) (raw : Json) : Formula

/-- `Formula::try_from` (src/lib.rs:830). -/
def decodeFormula (data : Json) : Except Error Formula := do
  let tag ← parseWith jdString "type" data
  match tag with
  | "string" => (parseWith (jdOpt jdString) "string" data).map .String
  | "number" => (parseWith (jdOpt jdNumber) "number" data).map .Number
  | "boolean" => (parseWith (jdOpt jdBool) "boolean" data).map .Boolean
  | "date" => (parseWith (jdOpt jdDate) "date" data).map .Date
  | key => .ok (.Unsupported key data)

def jdFormula (j : Json) : Except String Formula :=
  (decodeFormula j).mapError Error.show

/- ----------------------------------------------------------------
   Property / DatabaseProperty and their dual-indexed maps
   (src/lib.rs:683-757, 765-813, 1122-1223).
---------------------------------------------------------------- -/

def PResult.ofExcept : Except Error α → PResult α
  | .ok a => .ok a
  | .error e => .error e

def PResult.bindR : PResult α → (α → PResult β) → PResult β
  | .ok a, f => f a
  | .error e, _ => .error e
  | .panic, _ => .panic

instance : Monad PResult where
  pure := PResult.ok
  bind := PResult.bindR

inductive PropertyType where
  | RichText (xs : List RichText) : PropertyType
  | Number : PropertyType
  | Select (s : Select) : PropertyType
  | MultiSelect (m : MultiSelect) : PropertyType
  | Date (d : Option Date) : PropertyType
  | Formula (f : Formula) : PropertyType
  | Relation : PropertyType
  | Rollup : PropertyType
  | Title (xs : List RichText) : PropertyType
  | People : PropertyType
  | Files : PropertyType
  | Checkbox (b : Bool) : PropertyType
  | Url : PropertyType
  | Email : PropertyType
  | PhoneNumber : PropertyType
  | CreatedTime : PropertyType
  | CreatedBy : PropertyType
  | LastEditedTime : PropertyType
  | LastEditedBy : PropertyType
  | Unsupported (tag : String) (raw : Json) : PropertyType

structure Property where
  id : String
  next_url : Option String
  value : PropertyType

/-- `Property::try_from` (src/lib.rs:1132). The `id` field is fetched with
`ok_or(NoSuchProperty)` and then `.as_str().unwrap()`: a present non-string
`id` panics (the source's FIXME'd unwrap). -/
def decodeProperty (data : Json) : PResult Property := do
  let id ← (match data.get "id" with
    | none => PResult.error (.NoSuchProperty "id")
    | some (.str s) => PResult.ok s
    | some _ => PResult.panic)
  let next_url ← (match data.get "next_url" with
    | none => PResult.ok none
    | some (.str s) => PResult.ok (some s)
    | some _ => PResult.error (.NoSuchProperty "next_url"))
  let value ← PResult.ofExcept (do
    let tag ← parseWith jdString "type" data
    match tag with
    | "title" => (parseWith (jdArr jdRichText) "title" data).map PropertyType.Title
    | "rich_text" => (parseWith (jdArr jdRichText) "rich_text" data).map PropertyType.RichText
    | "date" => (parseWith (jdOpt jdDate) "date" data).map PropertyType.Date
    | "multi_select" => (parseWith jdMultiSelect "multi_select" data).map PropertyType.MultiSelect
    | "select" => (parseWith jdSelect "select" data).map PropertyType.Select
    | "formula" => (parseWith jdFormula "formula" data).map PropertyType.Formula
    | "checkbox" => (parseWith jdBool "checkbox" data).map PropertyType.Checkbox
    | key => Except.ok (PropertyType.Unsupported key data))
  PResult.ok ⟨id, next_url, value⟩

structure DatabaseFormula where
  expression : String
deriving DecidableEq, Repr

def jdDatabaseFormula (j : Json) : Except String DatabaseFormula :=
  match j with
  | .obj _ => (jfield j "expression" jdString).map DatabaseFormula.mk
  | _ => .error "invalid type: expected struct DatabaseFormula"

inductive DatabasePropertyType where
  | RichText : DatabasePropertyType
  | Number : DatabasePropertyType
  | Select (os : List SelectOption) : DatabasePropertyType
  | MultiSelect (os : List SelectOption) : DatabasePropertyType
  | Date : DatabasePropertyType
  | Formula (f : DatabaseFormula) : DatabasePropertyType
  | Relation : DatabasePropertyType
  | Rollup : DatabasePropertyType
  | Title : DatabasePropertyType
  | People : DatabasePropertyType
  | Files : DatabasePropertyType
  | Checkbox : DatabasePropertyType
  | Url : DatabasePropertyType
  | Email : DatabasePropertyType
  | PhoneNumber : DatabasePropertyType
  | CreatedTime : DatabasePropertyType
  | CreatedBy : DatabasePropertyType
  | LastEditedTime : DatabasePropertyType
  | LastEditedBy : DatabasePropertyType
  | Unsupported (tag : String) (raw : Json) : DatabasePropertyType

structure DatabaseProperty where
  id : String
  name : String
  next_url : Option String
  kind : DatabasePropertyType

/-- `DatabaseProperty::try_from` (src/lib.rs:1174). Besides the `id` unwrap it
has the FIXME'd `data.get("multi_select").unwrap()` / `data.get("select")
.unwrap()`: a `multi_select`/`select` type tag without the correspondingly
named sub-object panics. -/
def decodeDatabaseProperty (data : Json) : PResult DatabaseProperty := do
  let id ← (match data.get "id" with
    | none => PResult.error (.NoSuchProperty "id")
    | some (.str s) => PResult.ok s
    | some _ => PResult.panic)
  let next_url ← (match data.get "next_url" with
    | none => PResult.ok none
    | some (.str s) => PResult.ok (some s)
    | some _ => PResult.error (.NoSuchProperty "next_url"))
  let name ← PResult.ofExcept (parseWith jdString "name" data)
  let kind ← (do
    let tag ← PResult.ofExcept (parseWith jdString "type" data)
    match tag with
    | "title" => PResult.ok DatabasePropertyType.Title
    | "rich_text" => PResult.ok DatabasePropertyType.RichText
    | "date" => PResult.ok DatabasePropertyType.Date
    | "created_time" => PResult.ok DatabasePropertyType.Date
    | "last_edited_time" => PResult.ok DatabasePropertyType.Date
    | "multi_select" =>
        match data.get "multi_select" with
        | none => PResult.panic
        | some ms =>
            PResult.ofExcept
              ((parseWith (jdArr jdSelectOption) "options" ms).map DatabasePropertyType.MultiSelect)
    | "select" =>
        match data.get "select" with
        | none => PResult.panic
        | some sel =>
            PResult.ofExcept
              ((parseWith (jdArr jdSelectOption) "options" sel).map DatabasePropertyType.Select)
    | "formula" =>
        PResult.ofExcept ((parseWith jdDatabaseFormula "formula" data).map DatabasePropertyType.Formula)
    | "checkbox" => PResult.ok DatabasePropertyType.Checkbox
    | "number" => PResult.ok DatabasePropertyType.Number
    | key => PResult.ok (DatabasePropertyType.Unsupported key data))
  PResult.ok ⟨id, name, next_url, kind⟩

/-- Association-list lookup: the observable content of `HashMap::get`. -/
def alook : List (String × α) → String → Option α
  | [], _ => none
  | (k', v) :: rest, k => if k' = k then some v else alook rest k

/-- Association-list insert with replacement: `HashMap::insert`. -/
def insertR : List (String × α) → String → α → List (String × α)
  | [], k, v => [(k, v)]
  | (k', v') :: rest, k, v =>
      if k' = k then (k, v) :: rest else (k', v') :: insertR rest k v

/-- `Properties` (src/lib.rs:685): the same decoded values indexed by display
name and by embedded stable id (`HashMap`s modelled as association lists). -/
structure Properties where
  map : List (String × Property)
  id_map : List (String × Property)

/-- `Properties::get` (src/lib.rs:691): name map first, then id map. -/
def Properties.get (p : Properties) (key : String) : Option Property :=
  match alook p.map key with
  | some v => some v
  | none => alook p.id_map key

/-- The key loop of `Properties::try_from` (src/lib.rs:710): for each key of
the object (in the iteration order of serde_json's map), `parse` the value as
a `Property`, and insert it under the key and under its `id`. -/
def buildProps (data : Json) :
    List String → List (String × Property) → List (String × Property) → PResult Properties
  | [], m, im => .ok ⟨m, im⟩
  | k :: ks, m, im =>
      match data.get k with
      | none => .error (.NoSuchProperty k)
      | some v =>
          match decodeProperty v with
          | .panic => .panic
          | .error e => .error (.Deserialization e.show (some data))
          | .ok p => buildProps data ks (insertR m k p) (insertR im p.id p)

/-- `Properties::try_from` (src/lib.rs:703): `data.as_object().unwrap()`
panics on non-objects; otherwise both maps are built from the object's keys. -/
def decodeProperties (data : Json) : PResult Properties :=
  match data with
  | .obj fields => buildProps data (fields.map Prod.fst) [] []
  | _ => .panic

structure DatabaseProperties where
  map : List (String × DatabaseProperty)
  id_map : List (String × DatabaseProperty)

def DatabaseProperties.get (p : DatabaseProperties) (key : String) : Option DatabaseProperty :=
  match alook p.map key with
  | some v => some v
  | none => alook p.id_map key

def buildDbProps (data : Json) :
    List String → List (String × DatabaseProperty) → List (String × DatabaseProperty) →
      PResult DatabaseProperties
  | [], m, im => .ok ⟨m, im⟩
  | k :: ks, m, im =>
      match data.get k with
      | none => .error (.NoSuchProperty k)
      | some v =>
          match decodeDatabaseProperty v with
          | .panic => .panic
          | .error e => .error (.Deserialization e.show (some data))
          | .ok p => buildDbProps data ks (insertR m k p) (insertR im p.id p)

/-- `DatabaseProperties::try_from` (src/lib.rs:741): same shape, same
`as_object().unwrap()` panic on non-objects. -/
def decodeDatabaseProperties (data : Json) : PResult DatabaseProperties :=
  match data with
  | .obj fields => buildDbProps data (fields.map Prod.fst) [] []
  | _ => .panic

/- ----------------------------------------------------------------
   Blocks and recursive structure assembly (src/lib.rs:331-496).
---------------------------------------------------------------- -/

structure Heading where
  color : Color
  rich_text : List RichText
  is_toggleable : Bool

def jdHeading (j : Json) : Except String Heading :=
  match j with
  | .obj _ => do
      let color ← jfield j "color" jdColor
      let rich_text ← jfield j "rich_text" (jdArr jdRichText)
      let is_toggleable ← jfield j "is_toggleable" jdBool
      .ok ⟨color, rich_text, is_toggleable⟩
  | _ => .error "invalid type: expected struct Heading"

/-- `Paragraph` (src/lib.rs:485): color and rich text only — the derived
deserializer has no `children` field and ignores any `children` key. -/
structure Paragraph where
  color : Color
  rich_text : List RichText

def jdParagraph (j : Json) : Except String Paragraph :=
  match j with
  | .obj _ => do
      let color ← jfield j "color" jdColor
      let rich_text ← jfield j "rich_text" (jdArr jdRichText)
      .ok ⟨color, rich_text⟩
  | _ => .error "invalid type: expected struct Paragraph"

structure Code where
  language : CodeLanguage
  caption : List RichText
  rich_text : List RichText

def jdCode (j : Json) : Except String Code :=
  match j with
  | .obj _ => do
      let language ← jfield j "language" jdCodeLanguage
      let caption ← jfield j "caption" (jdArr jdRichText)
      let rich_text ← jfield j "rich_text" (jdArr jdRichText)
      .ok ⟨language, caption, rich_text⟩
  | _ => .error "invalid type: expected struct Code"

structure ChildPage where
  title : String

def jdChildPage (j : Json) : Except String ChildPage :=
  match j with
  | .obj _ => (jfield j "title" jdString).map ChildPage.mk
  | _ => .error "invalid type: expected struct ChildPage"

structure ChildDatabase where
  title : String

def jdChildDatabase (j : Json) : Except String ChildDatabase :=
  match j with
  | .obj _ => (jfield j "title" jdString).map ChildDatabase.mk
  | _ => .error "invalid type: expected struct ChildDatabase"

structure Image where
  image : File

def jdImage (j : Json) : Except String Image :=
  match j with
  | .obj _ => (jfield j "image" jdFile).map Image.mk
  | _ => .error "invalid type: expected struct Image"

structure Video where
  video : File

structure FileBlock where
  file : File
  caption : List RichText

structure PDF where
  pdf : File

mutual

inductive Block where
  | mk (id : String) (parent : Parent) (created_time : DateValue)
      (last_edited_time : DateValue) (created_by : PartialUser)
      (last_edited_by : PartialUser) (has_children : Bool) (archived : Bool)
      (value : BlockType) : Block

inductive BlockType where
  | Paragraph (p : Paragraph) : BlockType
  | BulletedListItem (l : ListItem) : BlockType
  | NumberedListItem (l : ListItem) : BlockType
  | ToDo (t : ToDoItem) : BlockType
  | Quote (q : Quote) : BlockType
  | Callout (c : Callout) : BlockType
  | ChildPage (c : ChildPage) : BlockType
  | ChildDatabase (c : ChildDatabase) : BlockType
  | Heading1 (h : Heading) : BlockType
  | Heading2 (h : Heading) : BlockType
  | Heading3 (h : Heading) : BlockType
  | Code (c : Code) : BlockType
  | Image (i : Image) : BlockType
  | Video (v : Video) : BlockType
  | File (f : FileBlock) : BlockType
  | PDF (p : PDF) : BlockType
  | ColumnList (c : ColumnList) : BlockType
  | Column (c : Column) : BlockType
  | Unsupported (tag : String) (raw : Json) : BlockType
  | Toggle : BlockType
  | SyncedBlock : BlockType
  | Template : BlockType
  | Table : BlockType
  | Bookmark : BlockType
  | Divider : BlockType
  | TableOfContents : BlockType

inductive ListItem where
  | mk (color : Color) (rich_text : List RichText)
      (children : Option (List Block)) : ListItem

inductive ToDoItem where
  | mk (color : Color) (rich_text : List RichText) (checked : Option Bool)
      (children : Option (List Block)) : ToDoItem

inductive Quote where
  | mk (color : Color) (rich_text : List RichText)
      (children : Option (List Block)) : Quote

inductive Callout where
  | mk (icon : Option Icon) (color : Color) (rich_text : List RichText)
      (children : Option (List Block)) : Callout

inductive Column where
  | mk (children : Option (List Block)) : Column

inductive ColumnList where
  | mk (children : Option (List Column)) : ColumnList

end

def Block.value : Block → BlockType
  | .mk _ _ _ _ _ _ _ _ v => v

def Block.id : Block → String
  | .mk i _ _ _ _ _ _ _ _ => i

def Block.has_children : Block → Bool
  | .mk _ _ _ _ _ _ h _ _ => h

def ListItem.children : ListItem → Option (List Block)
  | .mk _ _ c => c

def ToDoItem.children : ToDoItem → Option (List Block)
  | .mk _ _ _ c => c

def Quote.children : Quote → Option (List Block)
  | .mk _ _ c => c

def Callout.children : Callout → Option (List Block)
  | .mk _ _ _ c => c

def Column.children : Column → Option (List Block)
  | .mk c => c

def ColumnList.children : ColumnList → Option (List Column)
  | .mk c => c

theorem sizeOf_get_arr_lt {j : Json} {k : String} {xs : List Json}
    (h : j.get k = some (Json.arr xs)) : sizeOf xs < sizeOf j := by
  have := Json.sizeOf_get_lt j k _ h
  simp at this
  omega

mutual

/-- `Block::try_from` (src/lib.rs:345): envelope fields, then tag dispatch on
`type`. For the children-bearing payloads the `parse(key, data)` calls are
written with their `get` step exposed (needed for the termination measure);
the behaviour is identical. -/
def decodeBlock (data : Json) : Except Error Block := do
  let id ← parseWith jdString "id" data
  let parent ← parseWith jdParent "parent" data
  let created_time ← parseWith jdDateValue "created_time" data
  let last_edited_time ← parseWith jdDateValue "last_edited_time" data
  let created_by ← parseWith jdPartialUser "created_by" data
  let last_edited_by ← parseWith jdPartialUser "last_edited_by" data
  let has_children ← parseWith jdBool "has_children" data
  let archived ← parseWith jdBool "archived" data
  let tag ← parseWith jdString "type" data
  let value ← decodeBlockValue data tag
  .ok (Block.mk id parent created_time last_edited_time created_by
        last_edited_by has_children archived value)
termination_by (sizeOf data, 3)
decreasing_by
  all_goals first
    | (apply Prod.Lex.right; omega)
    | (apply Prod.Lex.left; exact Json.sizeOf_get_lt _ _ _ hg)

/-- The `value:` match of `Block::try_from` (src/lib.rs:359-377), factored out
of `decodeBlock` with the dispatched `type` tag as an argument. -/
def decodeBlockValue (data : Json) (tag : String) : Except Error BlockType :=
  match tag with
  | "heading_1" => (parseWith jdHeading "heading_1" data).map BlockType.Heading1
  | "heading_2" => (parseWith jdHeading "heading_2" data).map BlockType.Heading2
  | "heading_3" => (parseWith jdHeading "heading_3" data).map BlockType.Heading3
  | "paragraph" => (parseWith jdParagraph "paragraph" data).map BlockType.Paragraph
  | "child_database" =>
      (parseWith jdChildDatabase "child_database" data).map BlockType.ChildDatabase
  | "child_page" => (parseWith jdChildPage "child_page" data).map BlockType.ChildPage
  | "code" => (parseWith jdCode "code" data).map BlockType.Code
  | "bulleted_list_item" =>
      (match hg : data.get "bulleted_list_item" with
        | none => .error (.NoSuchProperty "bulleted_list_item")
        | some v =>
            match jdListItem v with
            | .ok li => .ok (BlockType.BulletedListItem li)
            | .error m => .error (.Deserialization m (some data)))
  | "numbered_list_item" =>
      (match hg : data.get "numbered_list_item" with
        | none => .error (.NoSuchProperty "numbered_list_item")
        | some v =>
            match jdListItem v with
            | .ok li => .ok (BlockType.NumberedListItem li)
            | .error m => .error (.Deserialization m (some data)))
  | "quote" =>
      (match hg : data.get "quote" with
        | none => .error (.NoSuchProperty "quote")
        | some v =>
            match jdQuote v with
            | .ok q => .ok (BlockType.Quote q)
            | .error m => .error (.Deserialization m (some data)))
  | "callout" =>
      (match hg : data.get "callout" with
        | none => .error (.NoSuchProperty "callout")
        | some v =>
            match jdCallout v with
            | .ok c => .ok (BlockType.Callout c)
            | .error m => .error (.Deserialization m (some data)))
  | "to_do" =>
      (match hg : data.get "to_do" with
        | none => .error (.NoSuchProperty "to_do")
        | some v =>
            match jdToDo v with
            | .ok t => .ok (BlockType.ToDo t)
            | .error m => .error (.Deserialization m (some data)))
  | "image" =>
      (match jdImage data with
        | .ok i => .ok (BlockType.Image i)
        | .error m => .error (.Deserialization m none))
  | "column_list" =>
      (match hg : data.get "column_list" with
        | none => .error (.NoSuchProperty "column_list")
        | some v =>
            match jdColumnList v with
            | .ok c => .ok (BlockType.ColumnList c)
            | .error m => .error (.Deserialization m (some data)))
  | "column" =>
      (match hg : data.get "column" with
        | none => .error (.NoSuchProperty "column")
        | some v =>
            match jdColumn v with
            | .ok c => .ok (BlockType.Column c)
            | .error m => .error (.Deserialization m (some data)))
  | key => .ok (BlockType.Unsupported key data)
termination_by (sizeOf data, 2)
decreasing_by
  all_goals (apply Prod.Lex.left; exact Json.sizeOf_get_lt _ _ _ hg)

/-- serde for `Vec<Block>` elements (each through `Block::try_from`). -/
def jdBlocks (xs : List Json) : Except String (List Block) :=
  match xs with
  | [] => .ok []
  | x :: rest => do
      let b ← (match decodeBlock x with
        | .ok b => Except.ok b
        | .error e => Except.error e.show)
      let bs ← jdBlocks rest
      .ok (b :: bs)
termination_by (sizeOf xs, 0)
decreasing_by
  all_goals first
    | (subst hj; apply Prod.Lex.right; omega)
    | (subst hj; apply Prod.Lex.left; exact sizeOf_get_arr_lt hg)
    | (apply Prod.Lex.left; exact Json.sizeOf_get_lt _ _ _ hg)
    | (apply Prod.Lex.left; exact sizeOf_get_arr_lt hg)
    | (apply Prod.Lex.left; simp; try omega)

/-- The optional `children: Option<Vec<Block>>` field of the derived
deserializers: absent or `null` is `None` (never the empty list). -/
def jdChildren (j : Json) : Except String (Option (List Block)) :=
  match hg : j.get "children" with
  | none => .ok none
  | some .null => .ok none
  | some (.arr xs) => (jdBlocks xs).map some
  | some _ => .error "invalid type: expected an array"
termination_by (sizeOf j, 0)
decreasing_by
  all_goals first
    | (subst hj; apply Prod.Lex.right; omega)
    | (subst hj; apply Prod.Lex.left; exact sizeOf_get_arr_lt hg)
    | (apply Prod.Lex.left; exact Json.sizeOf_get_lt _ _ _ hg)
    | (apply Prod.Lex.left; exact sizeOf_get_arr_lt hg)
    | (apply Prod.Lex.left; simp; try omega)

def jdListItem (j : Json) : Except String ListItem :=
  match hj : j with
  | .obj _ => do
      let color ← jfield j "color" jdColor
      let rich_text ← jfield j "rich_text" (jdArr jdRichText)
      let children ← jdChildren j
      .ok (ListItem.mk color rich_text children)
  | _ => .error "invalid type: expected struct ListItem"
termination_by (sizeOf j, 1)
decreasing_by
  all_goals first
    | (subst hj; apply Prod.Lex.right; omega)
    | (subst hj; apply Prod.Lex.left; exact sizeOf_get_arr_lt hg)
    | (apply Prod.Lex.left; exact Json.sizeOf_get_lt _ _ _ hg)
    | (apply Prod.Lex.left; exact sizeOf_get_arr_lt hg)
    | (apply Prod.Lex.left; simp; try omega)

def jdToDo (j : Json) : Except String ToDoItem :=
  match hj : j with
  | .obj _ => do
      let color ← jfield j "color" jdColor
      let rich_text ← jfield j "rich_text" (jdArr jdRichText)
      let checked ← jfieldOpt j "checked" jdBool
      let children ← jdChildren j
      .ok (ToDoItem.mk color rich_text checked children)
  | _ => .error "invalid type: expected struct ToDoItem"
termination_by (sizeOf j, 1)
decreasing_by
  all_goals first
    | (subst hj; apply Prod.Lex.right; omega)
    | (subst hj; apply Prod.Lex.left; exact sizeOf_get_arr_lt hg)
    | (apply Prod.Lex.left; exact Json.sizeOf_get_lt _ _ _ hg)
    | (apply Prod.Lex.left; exact sizeOf_get_arr_lt hg)
    | (apply Prod.Lex.left; simp; try omega)

def jdQuote (j : Json) : Except String Quote :=
  match hj : j with
  | .obj _ => do
      let color ← jfield j "color" jdColor
      let rich_text ← jfield j "rich_text" (jdArr jdRichText)
      let children ← jdChildren j
      .ok (Quote.mk color rich_text children)
  | _ => .error "invalid type: expected struct Quote"
termination_by (sizeOf j, 1)
decreasing_by
  all_goals first
    | (subst hj; apply Prod.Lex.right; omega)
    | (subst hj; apply Prod.Lex.left; exact sizeOf_get_arr_lt hg)
    | (apply Prod.Lex.left; exact Json.sizeOf_get_lt _ _ _ hg)
    | (apply Prod.Lex.left; exact sizeOf_get_arr_lt hg)
    | (apply Prod.Lex.left; simp; try omega)

def jdCallout (j : Json) : Except String Callout :=
  match hj : j with
  | .obj _ => do
      let icon ← jfieldOpt j "icon" jdIcon
      let color ← jfield j "color" jdColor
      let rich_text ← jfield j "rich_text" (jdArr jdRichText)
      let children ← jdChildren j
      .ok (Callout.mk icon color rich_text children)
  | _ => .error "invalid type: expected struct Callout"
termination_by (sizeOf j, 1)
decreasing_by
  all_goals first
    | (subst hj; apply Prod.Lex.right; omega)
    | (subst hj; apply Prod.Lex.left; exact sizeOf_get_arr_lt hg)
    | (apply Prod.Lex.left; exact Json.sizeOf_get_lt _ _ _ hg)
    | (apply Prod.Lex.left; exact sizeOf_get_arr_lt hg)
    | (apply Prod.Lex.left; simp; try omega)

def jdColumn (j : Json) : Except String Column :=
  match hj : j with
  | .obj _ => (jdChildren j).map Column.mk
  | _ => .error "invalid type: expected struct Column"
termination_by (sizeOf j, 1)
decreasing_by
  all_goals first
    | (subst hj; apply Prod.Lex.right; omega)
    | (subst hj; apply Prod.Lex.left; exact sizeOf_get_arr_lt hg)
    | (apply Prod.Lex.left; exact Json.sizeOf_get_lt _ _ _ hg)
    | (apply Prod.Lex.left; exact sizeOf_get_arr_lt hg)
    | (apply Prod.Lex.left; simp; try omega)

def jdColumns (xs : List Json) : Except String (List Column) :=
  match xs with
  | [] => .ok []
  | x :: rest => do
      let c ← jdColumn x
      let cs ← jdColumns rest
      .ok (c :: cs)
termination_by (sizeOf xs, 1)
decreasing_by
  all_goals first
    | (subst hj; apply Prod.Lex.right; omega)
    | (subst hj; apply Prod.Lex.left; exact sizeOf_get_arr_lt hg)
    | (apply Prod.Lex.left; exact Json.sizeOf_get_lt _ _ _ hg)
    | (apply Prod.Lex.left; exact sizeOf_get_arr_lt hg)
    | (apply Prod.Lex.left; simp; try omega)

def jdColumnList (j : Json) : Except String ColumnList :=
  match hj : j with
  | .obj _ =>
      (match hg : j.get "children" with
        | none => .ok (ColumnList.mk none)
        | some .null => .ok (ColumnList.mk none)
        | some (.arr xs) => (jdColumns xs).map (fun cs => ColumnList.mk (some cs))
        | some _ => .error "invalid type: expected an array")
  | _ => .error "invalid type: expected struct ColumnList"
termination_by (sizeOf j, 1)
decreasing_by
  all_goals first
    | (subst hj; apply Prod.Lex.right; omega)
    | (subst hj; apply Prod.Lex.left; exact sizeOf_get_arr_lt hg)
    | (apply Prod.Lex.left; exact Json.sizeOf_get_lt _ _ _ hg)
    | (apply Prod.Lex.left; exact sizeOf_get_arr_lt hg)
    | (apply Prod.Lex.left; simp; try omega)

end

/- ----------------------------------------------------------------
   Transport shell outcome classification (src/lib.rs:206-221, 74-94,
   302-322). The async HTTP exchange is abstracted to its observable
   outcome: a status code plus the parse of the body text as JSON
   (`none` models body text that is not valid JSON).
---------------------------------------------------------------- -/

structure HttpResponse where
  status : Nat
  body : Option Json

/-- `Response::error_for_status_ref`: an error for client/server statuses. -/
def errorForStatus (code : Nat) : Option ReqErr :=
  if 400 ≤ code ∧ code ≤ 599 then some (.status code) else none

/-- `Client::search` / `Pages::retrieve` / `BlockChildren::list` outcome
classification: on success status, `response.json::<T>()` (whose failure
surfaces as a reqwest decode error through `From`, i.e. `Http(decode, None)`);
on failure status, `response.json::<Value>().await?` — a body that fails to
parse also surfaces as `Http(decode, None)` via `?`, replacing the status
error — else `Http(status_error, Some(body))`. -/
def searchClassify (dec : Json → Except String α) (r : HttpResponse) :
    Except Error α :=
  match errorForStatus r.status with
  | none =>
      match r.body with
      | none => .error (.Http .decode none)
      | some j =>
          match dec j with
          | .ok a => .ok a
          | .error _ => .error (.Http .decode none)
  | some e =>
      match r.body with
      | none => .error (.Http .decode none)
      | some j => .error (.Http e (some j))

/-- serde_json parse-error messages are abstracted to one constant. -/
def serdeMsg : String := "serde_json parse error"

/-- `try_to_parse_response::<T>` (src/lib.rs:74): parse the text as `T`; on
failure, re-parse as `Value` for an attached body when the text is JSON at
all, else a bare `Deserialization(err, None)`. -/
def tryToParse (dec : Json → Except String α) (body : Option Json) :
    Except Error α :=
  match body with
  | none => .error (.Deserialization serdeMsg none)
  | some j =>
      match dec j with
      | .ok a => .ok a
      | .error m => .error (.Deserialization m (some j))

/-- `Databases::query` outcome classification (src/lib.rs:314-320): on
success status `try_to_parse_response::<T>`; on failure status
`try_to_parse_response::<Value>(response).await?` — an unparseable error body
propagates that `Deserialization` error through `?`, replacing the transport
error — else `Http(status_error, Some(body))`. -/
def queryClassify (dec : Json → Except String α) (r : HttpResponse) :
    Except Error α :=
  match errorForStatus r.status with
  | none => tryToParse dec r.body
  | some e =>
      match tryToParse (fun j => Except.ok j) r.body with
      | .ok j => .error (.Http e (some j))
      | .error err => .error err


/- ----------------------------------------------------------------
   General decoding lemmas shared by several verified properties.
---------------------------------------------------------------- -/

@[simp] theorem exbind_ok {ε α β : Type} (a : α) (f : α → Except ε β) :
    (Except.ok a >>= f) = f a := rfl

@[simp] theorem exbind_error {ε α β : Type} (e : ε) (f : α → Except ε β) :
    ((Except.error e : Except ε α) >>= f) = Except.error e := rfl

@[simp] theorem exmap_ok {ε α β : Type} (g : α → β) (a : α) :
    (Except.ok a : Except ε α).map g = Except.ok (g a) := rfl

@[simp] theorem exmap_error {ε α β : Type} (g : α → β) (e : ε) :
    (Except.error e : Except ε α).map g = Except.error e := rfl

@[simp] theorem pbind_ok {α β : Type} (a : α) (f : α → PResult β) :
    (PResult.ok a >>= f) = f a := rfl

@[simp] theorem pbind_error {α β : Type} (e : Error) (f : α → PResult β) :
    ((PResult.error e : PResult α) >>= f) = PResult.error e := rfl

@[simp] theorem pbind_panic {α β : Type} (f : α → PResult β) :
    ((PResult.panic : PResult α) >>= f) = PResult.panic := rfl

@[simp] theorem pofExcept_ok {α : Type} (a : α) :
    PResult.ofExcept (Except.ok a) = PResult.ok a := rfl

@[simp] theorem pofExcept_error {α : Type} (e : Error) :
    PResult.ofExcept (Except.error e : Except Error α) = PResult.error e := rfl

theorem parseWith_str {j : Json} {k s : String} (h : j.get k = some (Json.str s)) :
    parseWith jdString k j = .ok s := by
  simp [parseWith, h, jdString]

theorem parseWith_ok_inv {α : Type} {dec : Json → Except String α} {k : String}
    {j : Json} {a : α} (h : parseWith dec k j = .ok a) :
    ∃ v, j.get k = some v ∧ dec v = .ok a := by
  unfold parseWith at h
  cases hv : j.get k <;> rw [hv] at h
  · simp at h
  · rename_i v
    cases hd : dec v <;> simp [hd] at h
    subst h
    exact ⟨v, rfl, hd⟩

theorem get_some_obj {j v : Json} {k : String} (h : j.get k = some v) :
    ∃ fs, j = Json.obj fs := by
  cases j
  case obj fs => exact ⟨fs, rfl⟩
  all_goals simp [Json.get] at h

/- ----------------------------------------------------------------
   C1: unknown-tag fallbacks.
---------------------------------------------------------------- -/

/-- C1 (counterexample): decoding a `Property` from an object whose `type`
tag is unknown does not succeed unconditionally: with no `id` field the
decoder fails with `NoSuchProperty("id")` before reaching the fallback, so
the fallback path is not reached for every object with an unknown tag. -/
theorem C1_unsupported_fallback_counterexample :
    decodeProperty (Json.obj [("type", Json.str "weird_type")]) =
      .error (.NoSuchProperty "id") := rfl

/-- C1 (amended): for `Parent`, `File`, `Icon`, `Formula` and `RichText`, any
object whose `type` field is a string outside the known tags decodes to
`Unsupported(tag, original fragment)`; for `Mention` the same holds of the
`mention.type` discriminator; for Block content, `Property` and
`DatabaseProperty` it holds provided the decoder's other required fields
decode (Block's envelope; `id`/`name` strings; absent `next_url`). -/
theorem C1_unsupported_fallback (j m : Json) (tag : String) :
    (j.get "type" = some (Json.str tag) →
      tag ∉ (["page_id", "database_id", "block_id", "workspace"] : List String) →
      decodeParent j = .ok (.Unsupported tag j)) ∧
    (j.get "type" = some (Json.str tag) →
      tag ∉ (["file", "external"] : List String) →
      decodeFile j = .ok (.Unsupported tag j)) ∧
    (j.get "type" = some (Json.str tag) →
      tag ∉ (["file", "emoji"] : List String) →
      decodeIcon j = .ok (.Unsupported tag j)) ∧
    (j.get "type" = some (Json.str tag) →
      tag ∉ (["string", "number", "boolean", "date"] : List String) →
      decodeFormula j = .ok (.Unsupported tag j)) ∧
    (j.get "type" = some (Json.str tag) →
      tag ∉ (["text", "mention", "equation"] : List String) →
      decodeRichText j = .ok (.Unsupported tag j)) ∧
    (j.get "mention" = some m → m.get "type" = some (Json.str tag) →
      tag ∉ (["user", "page", "date", "database", "link_preview"] : List String) →
      decodeMention j = .ok (.Unsupported tag j)) ∧
    (∀ id parent ct lt cb lb hc ar,
      parseWith jdString "id" j = .ok id →
      parseWith jdParent "parent" j = .ok parent →
      parseWith jdDateValue "created_time" j = .ok ct →
      parseWith jdDateValue "last_edited_time" j = .ok lt →
      parseWith jdPartialUser "created_by" j = .ok cb →
      parseWith jdPartialUser "last_edited_by" j = .ok lb →
      parseWith jdBool "has_children" j = .ok hc →
      parseWith jdBool "archived" j = .ok ar →
      j.get "type" = some (Json.str tag) →
      tag ∉ (["heading_1", "heading_2", "heading_3", "paragraph", "child_database",
              "child_page", "code", "bulleted_list_item", "numbered_list_item",
              "quote", "callout", "to_do", "image", "column_list", "column"] : List String) →
      decodeBlock j = .ok (Block.mk id parent ct lt cb lb hc ar (.Unsupported tag j))) ∧
    (∀ idv, j.get "id" = some (Json.str idv) → j.get "next_url" = none →
      j.get "type" = some (Json.str tag) →
      tag ∉ (["title", "rich_text", "date", "multi_select", "select", "formula",
              "checkbox"] : List String) →
      decodeProperty j = .ok ⟨idv, none, .Unsupported tag j⟩) ∧
    (∀ idv nm, j.get "id" = some (Json.str idv) → j.get "next_url" = none →
      j.get "name" = some (Json.str nm) →
      j.get "type" = some (Json.str tag) →
      tag ∉ (["title", "rich_text", "date", "created_time", "last_edited_time",
              "multi_select", "select", "formula", "checkbox", "number"] : List String) →
      decodeDatabaseProperty j = .ok ⟨idv, nm, none, .Unsupported tag j⟩) := by
  refine ⟨?_, ?_, ?_, ?_, ?_, ?_, ?_, ?_, ?_⟩
  · intro hty hmem
    simp only [List.mem_cons, List.not_mem_nil, or_false, not_or] at hmem
    simp only [decodeParent, parseWith_str hty, exbind_ok]
    split <;> simp_all
  · intro hty hmem
    simp only [List.mem_cons, List.not_mem_nil, or_false, not_or] at hmem
    simp only [decodeFile, parseWith_str hty, exbind_ok]
    split <;> simp_all
  · intro hty hmem
    simp only [List.mem_cons, List.not_mem_nil, or_false, not_or] at hmem
    simp only [decodeIcon, parseWith_str hty, exbind_ok]
    split <;> simp_all
  · intro hty hmem
    simp only [List.mem_cons, List.not_mem_nil, or_false, not_or] at hmem
    simp only [decodeFormula, parseWith_str hty, exbind_ok]
    split <;> simp_all
  · intro hty hmem
    simp only [List.mem_cons, List.not_mem_nil, or_false, not_or] at hmem
    simp only [decodeRichText, parseWith_str hty, exbind_ok]
    split <;> simp_all
  · intro hm hty hmem
    simp only [List.mem_cons, List.not_mem_nil, or_false, not_or] at hmem
    simp only [decodeMention, hm, parseWith_str hty, exbind_ok]
    split <;> simp_all
  · intro id parent ct lt cb lb hc ar h1 h2 h3 h4 h5 h6 h7 h8 hty hmem
    simp only [List.mem_cons, List.not_mem_nil, or_false, not_or] at hmem
    have hval : decodeBlockValue j tag = .ok (.Unsupported tag j) := by
      rw [decodeBlockValue.eq_def]
      split <;> simp_all
    rw [decodeBlock.eq_def]
    simp only [h1, h2, h3, h4, h5, h6, h7, h8, parseWith_str hty, hval, exbind_ok]
  · intro idv hid hnu hty hmem
    simp only [List.mem_cons, List.not_mem_nil, or_false, not_or] at hmem
    simp only [decodeProperty, hid, hnu, parseWith_str hty, pbind_ok, exbind_ok,
      pofExcept_ok]
    split <;> simp_all
  · intro idv nm hid hnu hnm hty hmem
    simp only [List.mem_cons, List.not_mem_nil, or_false, not_or] at hmem
    simp only [decodeDatabaseProperty, hid, hnu, parseWith_str hnm,
      parseWith_str hty, pbind_ok, exbind_ok, pofExcept_ok]
    split <;> simp_all


/-- Concrete fragment exercising every unknown-tag fallback at once: an
unknown `type`, a `mention` whose inner `type` is unknown, and a full, valid
Block envelope with string `id` and `name`. -/
def c1input : Json := Json.obj [
  ("id", Json.str "p1"),
  ("name", Json.str "nm"),
  ("parent", Json.obj [("type", Json.str "workspace"), ("workspace", Json.bool true)]),
  ("created_time", Json.str "2023-05-17T12:00:00Z"),
  ("last_edited_time", Json.str "2023-05-17T12:00:00Z"),
  ("created_by", Json.obj [("id", Json.str "u1")]),
  ("last_edited_by", Json.obj [("id", Json.str "u1")]),
  ("has_children", Json.bool false),
  ("archived", Json.bool false),
  ("type", Json.str "zzz_unknown"),
  ("mention", Json.obj [("type", Json.str "zzz_unknown")])]

/-- C1 (witness): the amended fallback property at the concrete fragment. -/
theorem C1_unsupported_fallback_witness :
    decodeParent c1input = .ok (.Unsupported "zzz_unknown" c1input) ∧
    decodeFile c1input = .ok (.Unsupported "zzz_unknown" c1input) ∧
    decodeIcon c1input = .ok (.Unsupported "zzz_unknown" c1input) ∧
    decodeFormula c1input = .ok (.Unsupported "zzz_unknown" c1input) ∧
    decodeRichText c1input = .ok (.Unsupported "zzz_unknown" c1input) ∧
    decodeMention c1input = .ok (.Unsupported "zzz_unknown" c1input) ∧
    decodeBlock c1input = .ok (Block.mk "p1" (.Workspace true)
      (.DateTime ⟨2023, 5, 17, 12, 0, 0, 0⟩) (.DateTime ⟨2023, 5, 17, 12, 0, 0, 0⟩)
      ⟨"u1"⟩ ⟨"u1"⟩ false false (.Unsupported "zzz_unknown" c1input)) ∧
    decodeProperty c1input = .ok ⟨"p1", none, .Unsupported "zzz_unknown" c1input⟩ ∧
    decodeDatabaseProperty c1input =
      .ok ⟨"p1", "nm", none, .Unsupported "zzz_unknown" c1input⟩ := by
  have h := C1_unsupported_fallback c1input
    (Json.obj [("type", Json.str "zzz_unknown")]) "zzz_unknown"
  exact ⟨h.1 rfl (by decide), h.2.1 rfl (by decide), h.2.2.1 rfl (by decide),
    h.2.2.2.1 rfl (by decide), h.2.2.2.2.1 rfl (by decide),
    h.2.2.2.2.2.1 rfl rfl (by decide),
    h.2.2.2.2.2.2.1 _ _ _ _ _ _ _ _ rfl rfl rfl rfl rfl rfl rfl rfl rfl (by decide),
    h.2.2.2.2.2.2.2.1 _ rfl rfl rfl (by decide),
    h.2.2.2.2.2.2.2.2 _ _ rfl rfl rfl rfl (by decide)⟩

/- ----------------------------------------------------------------
   C2: panics on malformed external input.
---------------------------------------------------------------- -/

/-- C2 (code evaluation at the failing inputs): all three decoders the claim
names as returning typed errors in fact panic — `Properties::try_from` on a
non-object (`as_object().unwrap()`), `Property::try_from` on a non-string
`id` (`as_str().unwrap()`), and `DatabaseProperty::try_from` on a
`multi_select` tag without a `multi_select` sub-object
(`data.get("multi_select").unwrap()`). -/
theorem C2_malformed_input_panics :
    decodeProperties (Json.str "not an object") = .panic ∧
    decodeProperty (Json.obj [("id", Json.num 5)]) = .panic ∧
    decodeDatabaseProperty (Json.obj [("id", Json.str "a"), ("name", Json.str "n"),
      ("type", Json.str "multi_select")]) = .panic :=
  ⟨rfl, rfl, rfl⟩

/- ----------------------------------------------------------------
   C7: missing / non-string discriminators.
---------------------------------------------------------------- -/

theorem jdString_error {v : Json} (h : ∀ s, v ≠ Json.str s) :
    ∃ m, jdString v = .error m := by
  cases v
  case str s => exact absurd rfl (h s)
  all_goals exact ⟨_, rfl⟩

/-- An absent or non-string field makes `parse::<String>` fail. -/
theorem parseWith_str_error {j : Json} {k : String}
    (h : j.get k = none ∨ ∃ v, j.get k = some v ∧ ∀ s, v ≠ Json.str s) :
    ∃ e, parseWith jdString k j = .error e := by
  rcases h with h | ⟨v, hv, hns⟩
  · exact ⟨Error.NoSuchProperty k, by simp [parseWith, h]⟩
  · obtain ⟨m, hm⟩ := jdString_error hns
    exact ⟨Error.Deserialization m (some j), by simp [parseWith, hv, hm]⟩

/-- Inversion of a successful `Block::try_from`: every envelope field and the
`type` tag parsed, and the content came from the tag dispatch. -/
theorem decodeBlock_ok_inv {j : Json} {b : Block} (h : decodeBlock j = .ok b) :
    ∃ id parent ct lt cb lb hc ar tag value,
      parseWith jdString "id" j = .ok id ∧
      parseWith jdParent "parent" j = .ok parent ∧
      parseWith jdDateValue "created_time" j = .ok ct ∧
      parseWith jdDateValue "last_edited_time" j = .ok lt ∧
      parseWith jdPartialUser "created_by" j = .ok cb ∧
      parseWith jdPartialUser "last_edited_by" j = .ok lb ∧
      parseWith jdBool "has_children" j = .ok hc ∧
      parseWith jdBool "archived" j = .ok ar ∧
      parseWith jdString "type" j = .ok tag ∧
      decodeBlockValue j tag = .ok value ∧
      b = Block.mk id parent ct lt cb lb hc ar value := by
  rw [decodeBlock.eq_def] at h
  cases h1 : parseWith jdString "id" j with
  | error e => rw [h1] at h; simp at h
  | ok id =>
  rw [h1] at h; simp only [exbind_ok] at h
  cases h2 : parseWith jdParent "parent" j with
  | error e => rw [h2] at h; simp at h
  | ok parent =>
  rw [h2] at h; simp only [exbind_ok] at h
  cases h3 : parseWith jdDateValue "created_time" j with
  | error e => rw [h3] at h; simp at h
  | ok ct =>
  rw [h3] at h; simp only [exbind_ok] at h
  cases h4 : parseWith jdDateValue "last_edited_time" j with
  | error e => rw [h4] at h; simp at h
  | ok lt =>
  rw [h4] at h; simp only [exbind_ok] at h
  cases h5 : parseWith jdPartialUser "created_by" j with
  | error e => rw [h5] at h; simp at h
  | ok cb =>
  rw [h5] at h; simp only [exbind_ok] at h
  cases h6 : parseWith jdPartialUser "last_edited_by" j with
  | error e => rw [h6] at h; simp at h
  | ok lb =>
  rw [h6] at h; simp only [exbind_ok] at h
  cases h7 : parseWith jdBool "has_children" j with
  | error e => rw [h7] at h; simp at h
  | ok hc =>
  rw [h7] at h; simp only [exbind_ok] at h
  cases h8 : parseWith jdBool "archived" j with
  | error e => rw [h8] at h; simp at h
  | ok ar =>
  rw [h8] at h; simp only [exbind_ok] at h
  cases h9 : parseWith jdString "type" j with
  | error e => rw [h9] at h; simp at h
  | ok tag =>
  rw [h9] at h; simp only [exbind_ok] at h
  cases h10 : decodeBlockValue j tag with
  | error e => rw [h10] at h; simp at h
  | ok value =>
  rw [h10] at h; simp only [exbind_ok] at h
  simp at h
  exact ⟨id, parent, ct, lt, cb, lb, hc, ar, tag, value,
    rfl, rfl, rfl, rfl, rfl, rfl, rfl, rfl, rfl, h10, h.symm⟩


/-- C7: for every tagged-union decoder, a missing or non-string discriminator
never yields a successful decode (in particular never the `Unsupported`
fallback): `Parent`, `File`, `Icon`, `Formula`, `RichText` and `Block` always
return an error; `Mention` returns an error whenever its `mention` sub-object
is absent or carries a bad `type`; `Property`/`DatabaseProperty` return an
error provided `id` is a string — but with a present non-string `id` the
code panics (the FIXME'd unwrap) instead of returning the decode error the
claim requires, shown here at the concrete failing input `{"id": 5}`. -/
theorem C7_missing_discriminator :
    (∀ j : Json,
      (j.get "type" = none ∨ ∃ v, j.get "type" = some v ∧ ∀ s, v ≠ Json.str s) →
      (∃ e, decodeParent j = .error e) ∧ (∃ e, decodeFile j = .error e) ∧
      (∃ e, decodeIcon j = .error e) ∧ (∃ e, decodeFormula j = .error e) ∧
      (∃ e, decodeRichText j = .error e) ∧ (∃ e, decodeBlock j = .error e)) ∧
    (∀ j m : Json, j.get "mention" = some m →
      (m.get "type" = none ∨ ∃ v, m.get "type" = some v ∧ ∀ s, v ≠ Json.str s) →
      ∃ e, decodeMention j = .error e) ∧
    (∀ j : Json, j.get "mention" = none →
      decodeMention j = .error (.NoSuchProperty "mention")) ∧
    (∀ (j : Json) (s : String), j.get "id" = some (Json.str s) →
      (j.get "type" = none ∨ ∃ v, j.get "type" = some v ∧ ∀ s2, v ≠ Json.str s2) →
      (∃ e, decodeProperty j = .error e) ∧ (∃ e, decodeDatabaseProperty j = .error e)) ∧
    decodeProperty (Json.obj [("id", Json.num 5)]) = .panic := by
  refine ⟨?_, ?_, ?_, ?_, rfl⟩
  · intro j hd
    obtain ⟨e, he⟩ := parseWith_str_error hd
    refine ⟨⟨e, by simp [decodeParent, he]⟩, ⟨e, by simp [decodeFile, he]⟩,
      ⟨e, by simp [decodeIcon, he]⟩, ⟨e, by simp [decodeFormula, he]⟩,
      ⟨e, by simp [decodeRichText, he]⟩, ?_⟩
    cases hb : decodeBlock j with
    | error e2 => exact ⟨e2, rfl⟩
    | ok b =>
        exfalso
        obtain ⟨_, _, _, _, _, _, _, _, tag, _, _, _, _, _, _, _, _, _, h9, _, _⟩ :=
          decodeBlock_ok_inv hb
        rw [he] at h9
        exact Except.noConfusion h9
  · intro j m hm hd
    obtain ⟨e, he⟩ := parseWith_str_error hd
    exact ⟨e, by simp [decodeMention, hm, he]⟩
  · intro j hm
    simp [decodeMention, hm]
  · intro j s hid hd
    obtain ⟨e, he⟩ := parseWith_str_error hd
    constructor
    · cases hn : j.get "next_url" with
      | none => simp only [decodeProperty, hid, hn, he, pbind_ok, pofExcept_error,
          pbind_error, exbind_error]; exact ⟨_, rfl⟩
      | some v =>
          cases v <;>
            simp only [decodeProperty, hid, hn, he, pbind_ok, pbind_error,
              pofExcept_error, exbind_error] <;> exact ⟨_, rfl⟩
    · cases hn : j.get "next_url" with
      | none =>
          cases hname : parseWith jdString "name" j with
          | error e2 =>
              simp only [decodeDatabaseProperty, hid, hn, hname, pbind_ok,
                pbind_error, pofExcept_error, exbind_error]
              exact ⟨_, rfl⟩
          | ok nm =>
              simp only [decodeDatabaseProperty, hid, hn, hname, he, pbind_ok,
                pofExcept_ok, pofExcept_error, pbind_error, exbind_error]
              exact ⟨_, rfl⟩
      | some v =>
          cases v <;>
            (try (cases hname : parseWith jdString "name" j)) <;>
            simp only [decodeDatabaseProperty, hid, hn, he, pbind_ok, pbind_error,
              pofExcept_ok, pofExcept_error, exbind_error] <;>
            (try rw [hname]) <;>
            (try simp only [pofExcept_ok, pofExcept_error, pbind_ok, pbind_error]) <;>
            exact ⟨_, rfl⟩


/-- C7 (witness): the discriminator property at concrete inputs. -/
theorem C7_missing_discriminator_witness :
    (∃ e, decodeParent (Json.obj []) = .error e) ∧
    (∃ e, decodeBlock (Json.obj [("type", Json.bool true)]) = .error e) ∧
    decodeMention (Json.obj []) = .error (.NoSuchProperty "mention") ∧
    (∃ e, decodeProperty (Json.obj [("id", Json.str "a"), ("type", Json.num 3)]) =
      .error e) := by
  have h := C7_missing_discriminator
  exact ⟨(h.1 (Json.obj []) (Or.inl rfl)).1,
    (h.1 (Json.obj [("type", Json.bool true)])
      (Or.inr ⟨Json.bool true, rfl, by simp⟩)).2.2.2.2.2,
    h.2.2.1 (Json.obj []) rfl,
    (h.2.2.2.1 (Json.obj [("id", Json.str "a"), ("type", Json.num 3)]) "a" rfl
      (Or.inr ⟨Json.num 3, rfl, by simp⟩)).1⟩

/- ----------------------------------------------------------------
   C9: the `plain_text` default.
---------------------------------------------------------------- -/

/-- C9 (counterexample): with `type = "equation"` and no `plain_text`,
decoding fails (the derived `Equation` deserializer requires a string
`plain_text` from the same fragment), contradicting "decoding does not fail
on that field" for the Equation variant. -/
theorem C9_plain_text_counterexample :
    decodeRichText (Json.obj [("type", Json.str "equation"),
      ("equation", Json.obj [("expression", Json.str "x")])]) =
      .error (.Deserialization "missing field plain_text" none) := rfl

/-- Inversion of a successful `Text::try_from`: it requires a string
`plain_text` on the outer fragment. -/
theorem decodeText_ok_plain {j : Json} {t : Text} (h : decodeText j = .ok t) :
    ∃ s, j.get "plain_text" = some (Json.str s) := by
  unfold decodeText at h
  cases ht : j.get "text" <;> rw [ht] at h
  · simp at h
  · rename_i text
    simp only [] at h
    cases hc : parseWith jdString "content" text <;> rw [hc] at h <;>
      simp only [exbind_error, exbind_ok] at h
    · simp at h
    · cases hlk : (match text.get "link" with
        | some (Json.str _) => (parseWith jdLink "link" text).map some
        | _ => pure none) <;> rw [hlk] at h <;>
        simp only [exbind_error, exbind_ok] at h
      · simp at h
      · cases hpt : parseWith jdString "plain_text" j <;> rw [hpt] at h <;>
          simp only [exbind_error, exbind_ok] at h
        · simp at h
        · obtain ⟨v, hv, hd⟩ := parseWith_ok_inv hpt
          cases v <;> simp [jdString] at hd
          exact ⟨_, hv⟩

/-- C9 (amended): the `plain_text` carried by the decoded variant defaults to
`""` when the field is absent or non-string, but only the Mention variant
actually decodes in that situation; the Text and Equation payload decoders
independently require a string `plain_text` and fail without one. -/
theorem C9_plain_text_default (j : Json)
    (hp : j.get "plain_text" = none ∨
      ∃ v, j.get "plain_text" = some v ∧ ∀ s, v ≠ Json.str s) :
    (∀ mv, j.get "type" = some (Json.str "mention") → decodeMention j = .ok mv →
      decodeRichText j = .ok (.Mention mv "")) ∧
    (j.get "type" = some (Json.str "text") → ∃ e, decodeRichText j = .error e) ∧
    (j.get "type" = some (Json.str "equation") → ∃ e, decodeRichText j = .error e) := by
  have hplain : (match j.get "plain_text" with
      | some (.str s) => s
      | _ => "") = "" := by
    rcases hp with h | ⟨v, hv, hns⟩
    · rw [h]
    · rw [hv]
      cases v
      case str s => exact absurd rfl (hns s)
      all_goals rfl
  refine ⟨?_, ?_, ?_⟩
  · intro mv hty hmv
    simp [decodeRichText, parseWith_str hty, hmv, viaSerde, hplain]
  · intro hty
    cases hres : decodeText j with
    | error e2 =>
        exact ⟨.Deserialization e2.show none,
          by simp [decodeRichText, parseWith_str hty, viaSerde, hres]⟩
    | ok t =>
        exfalso
        obtain ⟨s, hs⟩ := decodeText_ok_plain hres
        rcases hp with h | ⟨v, hv, hns⟩
        · rw [h] at hs; exact Option.noConfusion hs
        · rw [hv] at hs
          exact hns s (Option.some.inj hs)
  · intro hty
    obtain ⟨fs, hj⟩ := get_some_obj hty
    subst hj
    have heq : ∃ m, jdEquation (Json.obj fs) = .error m := by
      rcases hp with h | ⟨v, hv, hns⟩
      · exact ⟨"missing field " ++ "plain_text", by simp [jdEquation, jfield, h]⟩
      · obtain ⟨m, hm⟩ := jdString_error hns
        exact ⟨m, by simp [jdEquation, jfield, hv, hm]⟩
    obtain ⟨m, hm⟩ := heq
    exact ⟨.Deserialization m none,
      by simp [decodeRichText, parseWith_str hty, hm, hplain]⟩

/-- C9 (witness): a `mention` span with no `plain_text` decodes with the
empty default. -/
theorem C9_plain_text_default_witness :
    decodeRichText (Json.obj [("type", Json.str "mention"),
      ("mention", Json.obj [("type", Json.str "user"),
        ("user", Json.obj [("id", Json.str "u1")])])]) =
      .ok (.Mention (.User ⟨"u1", none, none, none⟩) "") :=
  (C9_plain_text_default (Json.obj [("type", Json.str "mention"),
      ("mention", Json.obj [("type", Json.str "user"),
        ("user", Json.obj [("id", Json.str "u1")])])]) (Or.inl rfl)).1
    (.User ⟨"u1", none, none, none⟩) rfl rfl

/- ----------------------------------------------------------------
   C10: MultiSelect's three input shapes.
---------------------------------------------------------------- -/

/-- C10: `MultiSelect::try_from` yields the empty option list on any value
that is neither array nor object; an array decodes as the option list itself;
an object decodes through its `options` field. -/
theorem C10_multi_select_shapes :
    (∀ j : Json, (∀ xs, j ≠ Json.arr xs) → (∀ fs, j ≠ Json.obj fs) →
      decodeMultiSelect j = .ok ⟨[]⟩) ∧
    (∀ xs opts, jdElems jdSelectOption xs = .ok opts →
      decodeMultiSelect (Json.arr xs) = .ok ⟨opts⟩) ∧
    (∀ fs v opts, Json.get (Json.obj fs) "options" = some v →
      jdArr jdSelectOption v = .ok opts →
      decodeMultiSelect (Json.obj fs) = .ok ⟨opts⟩) := by
  refine ⟨?_, ?_, ?_⟩
  · intro j ha ho
    cases j <;> first | rfl | (exact absurd rfl (ha _)) | (exact absurd rfl (ho _))
  · intro xs opts h
    simp [decodeMultiSelect, jdArr, h]
  · intro fs v opts hv h
    simp [decodeMultiSelect, parseWith, hv, h]

/-- C10 (witness): the three shapes at concrete inputs. -/
theorem C10_multi_select_shapes_witness :
    decodeMultiSelect (Json.str "scalar") = .ok ⟨[]⟩ ∧
    decodeMultiSelect (Json.arr [Json.obj [("id", Json.str "1"),
      ("name", Json.str "Done"), ("color", Json.str "green")]]) =
      .ok ⟨[⟨"1", "Done", Color.Green⟩]⟩ ∧
    decodeMultiSelect (Json.obj [("options", Json.arr [])]) = .ok ⟨[]⟩ := by
  have h := C10_multi_select_shapes
  exact ⟨h.1 (Json.str "scalar") (by simp) (by simp),
    h.2.1 _ _ rfl, h.2.2 _ (Json.arr []) _ rfl rfl⟩

/- ----------------------------------------------------------------
   C8: transport error classification.
---------------------------------------------------------------- -/

/-- C8 (counterexample): a failed HTTP status (500) whose error body is not
valid JSON: `Databases::query` propagates the body-decode `Deserialization`
error through `?`, replacing the transport (`Http`) error instead of
attaching best-effort raw text to it. -/
theorem C8_error_masking_counterexample :
    queryClassify (fun j => Except.ok j) ⟨500, none⟩ =
      .error (.Deserialization serdeMsg none) := rfl

/-- C8 (amended): on a failed status the transport error with the parsed
body attached is returned when the error body parses as JSON; when it does
not parse, the body-decode failure replaces the transport error (a
`Deserialization` error for `query`, a bodyless `Http` decode error for
`search`/`retrieve`/`list`). -/
theorem C8_transport_errors (α : Type) (dec : Json → Except String α)
    (r : HttpResponse) (e : ReqErr) (hs : errorForStatus r.status = some e) :
    (∀ j, r.body = some j →
      queryClassify dec r = .error (.Http e (some j)) ∧
      searchClassify dec r = .error (.Http e (some j))) ∧
    (r.body = none →
      queryClassify dec r = .error (.Deserialization serdeMsg none) ∧
      searchClassify dec r = .error (.Http .decode none)) := by
  constructor
  · intro j hb
    constructor
    · simp [queryClassify, tryToParse, hs, hb]
    · simp [searchClassify, hs, hb]
  · intro hb
    constructor
    · simp [queryClassify, tryToParse, hs, hb]
    · simp [searchClassify, hs, hb]

/-- C8 (witness): the amended classification at a concrete 404 response. -/
theorem C8_transport_errors_witness :
    queryClassify Except.ok ⟨404, some Json.null⟩ =
      .error (.Http (.status 404) (some Json.null)) ∧
    searchClassify Except.ok ⟨404, some Json.null⟩ =
      .error (.Http (.status 404) (some Json.null)) :=
  (C8_transport_errors Json Except.ok ⟨404, some Json.null⟩ (.status 404)
    (by decide)).1 Json.null rfl


/- ----------------------------------------------------------------
   C5: dual indexing of the Properties map.
---------------------------------------------------------------- -/

theorem alook_insertR {α : Type} (m : List (String × α)) (k k2 : String) (v : α) :
    alook (insertR m k v) k2 = if k = k2 then some v else alook m k2 := by
  induction m with
  | nil => by_cases h : k = k2 <;> simp [insertR, alook, h]
  | cons e rest ih =>
      obtain ⟨a, b⟩ := e
      by_cases hak : a = k
      · subst hak
        by_cases h2 : a = k2 <;> simp [insertR, alook, h2]
      · by_cases h2 : a = k2
        · subst h2
          have hne : ¬ k = a := fun hh => hak hh.symm
          simp [insertR, alook, hak, hne]
        · simp [insertR, alook, hak, h2, ih]

theorem insertR_fresh {α : Type} (m : List (String × α)) (k : String) (v : α)
    (h : alook m k = none) : insertR m k v = m ++ [(k, v)] := by
  induction m with
  | nil => rfl
  | cons e rest ih =>
      obtain ⟨a, b⟩ := e
      by_cases hak : a = k
      · simp [alook, hak] at h
      · simp only [alook, if_neg hak] at h
        simp [insertR, hak, ih h]

theorem mem_of_alook_some {α : Type} {m : List (String × α)} {k : String} {v : α}
    (h : alook m k = some v) : (k, v) ∈ m := by
  induction m with
  | nil => simp [alook] at h
  | cons e rest ih =>
      obtain ⟨a, b⟩ := e
      by_cases hak : a = k
      · subst hak
        simp [alook] at h
        simp [h]
      · simp only [alook, if_neg hak] at h
        simp [ih h]

theorem alook_of_mem {α : Type} {m : List (String × α)} {k : String} {v : α}
    (hmem : (k, v) ∈ m) (hnd : (m.map Prod.fst).Nodup) : alook m k = some v := by
  induction m with
  | nil => simp at hmem
  | cons e rest ih =>
      obtain ⟨a, b⟩ := e
      simp only [List.map_cons, List.nodup_cons] at hnd
      rcases List.mem_cons.mp hmem with heq | hmem2
      · injection heq with h1 h2
        subst h1
        subst h2
        simp [alook]
      · have hk : k ∈ rest.map Prod.fst := List.mem_map.mpr ⟨(k, v), hmem2, rfl⟩
        have hak : ¬ a = k := fun hh => hnd.1 (hh ▸ hk)
        simp only [alook, if_neg hak]
        exact ih hmem2 hnd.2

theorem foldl_insertR_append {α : Type} (ps : List (String × α))
    (m : List (String × α))
    (hfresh : ∀ p ∈ ps, alook m p.1 = none)
    (hnd : (ps.map Prod.fst).Nodup) :
    ps.foldl (fun acc e => insertR acc e.1 e.2) m = m ++ ps := by
  induction ps generalizing m with
  | nil => simp
  | cons e ps ih =>
      obtain ⟨k, v⟩ := e
      simp only [List.map_cons, List.nodup_cons] at hnd
      simp only [List.foldl_cons]
      have hm : alook m k = none := hfresh (k, v) (by simp)
      have hstep : ∀ p ∈ ps, alook (insertR m k v) p.1 = none := by
        intro p hp
        rw [alook_insertR]
        have hne : ¬ k = p.1 := by
          intro hh
          exact hnd.1 (hh ▸ List.mem_map.mpr ⟨p, hp, rfl⟩)
        rw [if_neg hne]
        exact hfresh p (by simp [hp])
      rw [ih (insertR m k v) hstep hnd.2, insertR_fresh m k v hm]
      simp

theorem buildProps_ok_inv (data : Json) (ks : List String)
    (m im : List (String × Property)) (P : Properties)
    (h : buildProps data ks m im = .ok P) :
    ∃ ps : List (String × Property),
      ps.map Prod.fst = ks ∧
      P.map = ps.foldl (fun acc e => insertR acc e.1 e.2) m ∧
      P.id_map = ps.foldl (fun acc e => insertR acc e.2.id e.2) im := by
  induction ks generalizing m im with
  | nil =>
      simp only [buildProps] at h
      cases h
      exact ⟨[], rfl, rfl, rfl⟩
  | cons k ks ih =>
      unfold buildProps at h
      cases hget : data.get k <;> rw [hget] at h
      · simp at h
      · rename_i v
        simp only [] at h
        cases hdec : decodeProperty v <;> rw [hdec] at h
        case ok p =>
          obtain ⟨ps, hps, hm, him⟩ := ih _ _ h
          exact ⟨(k, p) :: ps, by simp [hps], by simp [hm], by simp [him]⟩
        case error e => simp at h
        case panic => simp at h

/-- C5 (amended): after a successful `Properties` decode of an object with
distinct keys, lookup by name always returns the decoded value; lookup of a
key in neither map returns `None` (never an error); and lookup by a value's
embedded id returns that same value provided the embedded ids are pairwise
distinct and the id does not collide with a (different) display name, since
`Properties::get` consults the name map first and the id map is built by
last-wins insertion. -/
theorem C5_dual_index (fs : List (String × Json)) (P : Properties)
    (hnd : (fs.map Prod.fst).Nodup)
    (hok : decodeProperties (Json.obj fs) = .ok P) :
    (∀ k v, alook P.map k = some v → P.get k = some v) ∧
    (∀ k, alook P.map k = none → alook P.id_map k = none → P.get k = none) ∧
    ((P.map.map (fun e => e.2.id)).Nodup →
      ∀ k v, alook P.map k = some v →
      (alook P.map v.id = none ∨ alook P.map v.id = some v) →
      P.get v.id = some v) := by
  unfold decodeProperties at hok
  simp only [] at hok
  obtain ⟨ps, hks, hm, him⟩ := buildProps_ok_inv _ _ _ _ _ hok
  have hndps : (ps.map Prod.fst).Nodup := by rw [hks]; exact hnd
  have hmap : P.map = ps := by
    rw [hm, foldl_insertR_append ps [] (by simp [alook]) hndps]
    simp
  refine ⟨?_, ?_, ?_⟩
  · intro k v h
    simp [Properties.get, h]
  · intro k h1 h2
    simp [Properties.get, h1, h2]
  · intro hidnd k v hkv hdisj
    have hvmem : (k, v) ∈ ps := mem_of_alook_some (hmap ▸ hkv)
    have hfold : ps.foldl (fun acc e => insertR acc e.2.id e.2)
        ([] : List (String × Property)) =
        (ps.map (fun e => (e.2.id, e.2))).foldl (fun acc e => insertR acc e.1 e.2) [] :=
      (List.foldl_map (fun e : String × Property => (e.2.id, e.2))
        (fun acc e => insertR acc e.1 e.2) ps []).symm
    have hidnd2 : (ps.map (fun e => e.2.id)).Nodup := by
      rw [hmap] at hidnd
      exact hidnd
    have hqnd : ((ps.map (fun e => (e.2.id, e.2))).map Prod.fst).Nodup := by
      rw [List.map_map]
      exact hidnd2
    have hqs : P.id_map = ps.map (fun e => (e.2.id, e.2)) := by
      rw [him, hfold, foldl_insertR_append _ [] (fun p hp => by simp [alook]) hqnd]
      simp
    have hidlook : alook P.id_map v.id = some v := by
      rw [hqs]
      exact alook_of_mem (List.mem_map.mpr ⟨(k, v), hvmem, rfl⟩) hqnd
    rcases hdisj with hnone | hsome
    · simp [Properties.get, hnone, hidlook]
    · simp [Properties.get, hsome]


def c5A : Property := ⟨"x", none, .Checkbox true⟩

def c5B : Property := ⟨"x", none, .Checkbox false⟩

/-- Two properties under different names sharing the embedded id `"x"`. -/
def c5input : Json := Json.obj [
  ("A", Json.obj [("id", Json.str "x"), ("type", Json.str "checkbox"),
    ("checkbox", Json.bool true)]),
  ("B", Json.obj [("id", Json.str "x"), ("type", Json.str "checkbox"),
    ("checkbox", Json.bool false)])]

/-- C5 (counterexample): when two decoded properties share an embedded id, the
id map keeps only the last-inserted one, so looking up the first value's id
returns a different value — not one "equal to v" as the claim states. -/
theorem C5_dual_index_counterexample :
    decodeProperties c5input = .ok ⟨[("A", c5A), ("B", c5B)], [("x", c5B)]⟩ ∧
    alook [("A", c5A), ("B", c5B)] "A" = some c5A ∧
    c5A.id = "x" ∧
    Properties.get ⟨[("A", c5A), ("B", c5B)], [("x", c5B)]⟩ "x" = some c5B ∧
    c5B ≠ c5A := by
  refine ⟨rfl, rfl, rfl, rfl, ?_⟩
  intro h
  simp [c5A, c5B] at h

def c5wprop : Property := ⟨"abc", none, .Select ⟨some ⟨"1", "Done", Color.Green⟩⟩⟩

/-- C5 (witness): with a distinct id, lookup by name, lookup by id, and an
absent key behave as amended. -/
theorem C5_dual_index_witness :
    Properties.get ⟨[("Status", c5wprop)], [("abc", c5wprop)]⟩ "Status" = some c5wprop ∧
    Properties.get ⟨[("Status", c5wprop)], [("abc", c5wprop)]⟩ "abc" = some c5wprop ∧
    Properties.get ⟨[("Status", c5wprop)], [("abc", c5wprop)]⟩ "missing" = none := by
  have h := C5_dual_index [("Status", Json.obj [("id", Json.str "abc"),
      ("type", Json.str "select"),
      ("select", Json.obj [("id", Json.str "1"), ("name", Json.str "Done"),
        ("color", Json.str "green")])])]
    ⟨[("Status", c5wprop)], [("abc", c5wprop)]⟩ (by simp) rfl
  exact ⟨h.1 "Status" c5wprop rfl,
    h.2.2 (by simp [c5wprop]) "Status" c5wprop rfl (Or.inl rfl),
    h.2.1 "missing" rfl rfl⟩


/- ----------------------------------------------------------------
   C6: children decoding.
---------------------------------------------------------------- -/

/-- Forward construction of a `Block::try_from` success out of its parts. -/
theorem decodeBlock_mk {j : Json} {id : String} {parent : Parent}
    {ct lt : DateValue} {cb lb : PartialUser} {hc ar : Bool} {tag : String}
    {value : BlockType}
    (h1 : parseWith jdString "id" j = .ok id)
    (h2 : parseWith jdParent "parent" j = .ok parent)
    (h3 : parseWith jdDateValue "created_time" j = .ok ct)
    (h4 : parseWith jdDateValue "last_edited_time" j = .ok lt)
    (h5 : parseWith jdPartialUser "created_by" j = .ok cb)
    (h6 : parseWith jdPartialUser "last_edited_by" j = .ok lb)
    (h7 : parseWith jdBool "has_children" j = .ok hc)
    (h8 : parseWith jdBool "archived" j = .ok ar)
    (h9 : parseWith jdString "type" j = .ok tag)
    (hval : decodeBlockValue j tag = .ok value) :
    decodeBlock j = .ok (Block.mk id parent ct lt cb lb hc ar value) := by
  rw [decodeBlock.eq_def]
  simp [h1, h2, h3, h4, h5, h6, h7, h8, h9, hval]

theorem jdBlocks_nil : jdBlocks [] = .ok [] := by
  rw [jdBlocks.eq_def]

theorem jdBlocks_cons_inv {x : Json} {xs : List Json} {bs : List Block}
    (h : jdBlocks (x :: xs) = .ok bs) :
    ∃ b bs2, decodeBlock x = .ok b ∧ jdBlocks xs = .ok bs2 ∧ bs = b :: bs2 := by
  rw [jdBlocks.eq_def] at h
  simp only [] at h
  cases hd : decodeBlock x <;> rw [hd] at h <;> simp only [] at h
  · simp at h
  · cases hrest : jdBlocks xs <;> rw [hrest] at h <;>
      simp only [exbind_error, exbind_ok] at h
    · simp at h
    · rename_i b bs2
      simp only [Except.ok.injEq] at h
      exact ⟨b, bs2, rfl, rfl, h.symm⟩

theorem jdBlocks_length {xs : List Json} {bs : List Block}
    (h : jdBlocks xs = .ok bs) : bs.length = xs.length := by
  induction xs generalizing bs with
  | nil =>
      rw [jdBlocks_nil] at h
      simp only [Except.ok.injEq] at h
      subst h
      rfl
  | cons x xs ih =>
      obtain ⟨b, bs2, _, hrest, rfl⟩ := jdBlocks_cons_inv h
      simp [ih hrest]

theorem jdColumns_cons_inv {x : Json} {xs : List Json} {cs : List Column}
    (h : jdColumns (x :: xs) = .ok cs) :
    ∃ c cs2, jdColumn x = .ok c ∧ jdColumns xs = .ok cs2 ∧ cs = c :: cs2 := by
  rw [jdColumns.eq_def] at h
  simp only [] at h
  cases hd : jdColumn x <;> rw [hd] at h <;> simp only [exbind_error, exbind_ok] at h
  · simp at h
  · cases hrest : jdColumns xs <;> rw [hrest] at h <;>
      simp only [exbind_error, exbind_ok] at h
    · simp at h
    · rename_i c cs2
      simp only [Except.ok.injEq] at h
      exact ⟨c, cs2, rfl, rfl, h.symm⟩

theorem jdColumns_length {xs : List Json} {cs : List Column}
    (h : jdColumns xs = .ok cs) : cs.length = xs.length := by
  induction xs generalizing cs with
  | nil =>
      rw [jdColumns.eq_def] at h
      simp only [Except.ok.injEq] at h
      subst h
      rfl
  | cons x xs ih =>
      obtain ⟨c, cs2, _, hrest, rfl⟩ := jdColumns_cons_inv h
      simp [ih hrest]

theorem jdChildren_none {j : Json} (h : j.get "children" = none) :
    jdChildren j = .ok none := by
  rw [jdChildren.eq_def]
  split <;> simp_all

theorem jdChildren_arr {j : Json} {xs : List Json} {bs : List Block}
    (h : j.get "children" = some (Json.arr xs)) (hbs : jdBlocks xs = .ok bs) :
    jdChildren j = .ok (some bs) := by
  rw [jdChildren.eq_def]
  split <;> simp_all

theorem jdListItem_mk {vfs : List (String × Json)} {color : Color}
    {rt : List RichText} {ch : Option (List Block)}
    (hcolor : jfield (Json.obj vfs) "color" jdColor = .ok color)
    (hrt : jfield (Json.obj vfs) "rich_text" (jdArr jdRichText) = .ok rt)
    (hch : jdChildren (Json.obj vfs) = .ok ch) :
    jdListItem (Json.obj vfs) = .ok (ListItem.mk color rt ch) := by
  rw [jdListItem.eq_def]
  simp [hcolor, hrt, hch]

theorem jdToDo_mk {vfs : List (String × Json)} {color : Color}
    {rt : List RichText} {checked : Option Bool} {ch : Option (List Block)}
    (hcolor : jfield (Json.obj vfs) "color" jdColor = .ok color)
    (hrt : jfield (Json.obj vfs) "rich_text" (jdArr jdRichText) = .ok rt)
    (hchk : jfieldOpt (Json.obj vfs) "checked" jdBool = .ok checked)
    (hch : jdChildren (Json.obj vfs) = .ok ch) :
    jdToDo (Json.obj vfs) = .ok (ToDoItem.mk color rt checked ch) := by
  rw [jdToDo.eq_def]
  simp [hcolor, hrt, hchk, hch]

theorem jdQuote_mk {vfs : List (String × Json)} {color : Color}
    {rt : List RichText} {ch : Option (List Block)}
    (hcolor : jfield (Json.obj vfs) "color" jdColor = .ok color)
    (hrt : jfield (Json.obj vfs) "rich_text" (jdArr jdRichText) = .ok rt)
    (hch : jdChildren (Json.obj vfs) = .ok ch) :
    jdQuote (Json.obj vfs) = .ok (Quote.mk color rt ch) := by
  rw [jdQuote.eq_def]
  simp [hcolor, hrt, hch]

theorem jdCallout_mk {vfs : List (String × Json)} {icon : Option Icon}
    {color : Color} {rt : List RichText} {ch : Option (List Block)}
    (hicon : jfieldOpt (Json.obj vfs) "icon" jdIcon = .ok icon)
    (hcolor : jfield (Json.obj vfs) "color" jdColor = .ok color)
    (hrt : jfield (Json.obj vfs) "rich_text" (jdArr jdRichText) = .ok rt)
    (hch : jdChildren (Json.obj vfs) = .ok ch) :
    jdCallout (Json.obj vfs) = .ok (Callout.mk icon color rt ch) := by
  rw [jdCallout.eq_def]
  simp [hicon, hcolor, hrt, hch]

theorem jdColumn_mk {vfs : List (String × Json)} {ch : Option (List Block)}
    (hch : jdChildren (Json.obj vfs) = .ok ch) :
    jdColumn (Json.obj vfs) = .ok (Column.mk ch) := by
  rw [jdColumn.eq_def]
  simp [hch]

theorem jdColumnList_none {vfs : List (String × Json)}
    (h : (Json.obj vfs).get "children" = none) :
    jdColumnList (Json.obj vfs) = .ok (ColumnList.mk none) := by
  rw [jdColumnList.eq_def]
  split <;> simp_all
  all_goals (split <;> simp_all)

theorem jdColumnList_arr {vfs : List (String × Json)} {xs : List Json}
    {cs : List Column}
    (h : (Json.obj vfs).get "children" = some (Json.arr xs))
    (hcs : jdColumns xs = .ok cs) :
    jdColumnList (Json.obj vfs) = .ok (ColumnList.mk (some cs)) := by
  rw [jdColumnList.eq_def]
  split <;> simp_all
  all_goals (split <;> simp_all)
  all_goals (rename_i hnull hnoarr heq2; exact hnoarr _ heq2.symm)

/-- Dispatch of a known children-bearing tag through `decodeBlockValue`. -/
theorem decodeBlockValue_to_do {j v : Json} {t : ToDoItem}
    (hv : j.get "to_do" = some v) (ht : jdToDo v = .ok t) :
    decodeBlockValue j "to_do" = .ok (.ToDo t) := by
  rw [decodeBlockValue.eq_def]
  split <;> simp_all
  all_goals (split <;> simp_all)

theorem decodeBlockValue_bulleted {j v : Json} {li : ListItem}
    (hv : j.get "bulleted_list_item" = some v) (ht : jdListItem v = .ok li) :
    decodeBlockValue j "bulleted_list_item" = .ok (.BulletedListItem li) := by
  rw [decodeBlockValue.eq_def]
  split <;> simp_all
  all_goals (split <;> simp_all)

theorem decodeBlockValue_numbered {j v : Json} {li : ListItem}
    (hv : j.get "numbered_list_item" = some v) (ht : jdListItem v = .ok li) :
    decodeBlockValue j "numbered_list_item" = .ok (.NumberedListItem li) := by
  rw [decodeBlockValue.eq_def]
  split <;> simp_all
  all_goals (split <;> simp_all)

theorem decodeBlockValue_quote {j v : Json} {q : Quote}
    (hv : j.get "quote" = some v) (ht : jdQuote v = .ok q) :
    decodeBlockValue j "quote" = .ok (.Quote q) := by
  rw [decodeBlockValue.eq_def]
  split <;> simp_all
  all_goals (split <;> simp_all)

theorem decodeBlockValue_callout {j v : Json} {c : Callout}
    (hv : j.get "callout" = some v) (ht : jdCallout v = .ok c) :
    decodeBlockValue j "callout" = .ok (.Callout c) := by
  rw [decodeBlockValue.eq_def]
  split <;> simp_all
  all_goals (split <;> simp_all)

theorem decodeBlockValue_column {j v : Json} {c : Column}
    (hv : j.get "column" = some v) (ht : jdColumn v = .ok c) :
    decodeBlockValue j "column" = .ok (.Column c) := by
  rw [decodeBlockValue.eq_def]
  split <;> simp_all
  all_goals (split <;> simp_all)

theorem decodeBlockValue_column_list {j v : Json} {c : ColumnList}
    (hv : j.get "column_list" = some v) (ht : jdColumnList v = .ok c) :
    decodeBlockValue j "column_list" = .ok (.ColumnList c) := by
  rw [decodeBlockValue.eq_def]
  split <;> simp_all
  all_goals (split <;> simp_all)


/-- C6 (amended): for the children-bearing block kinds the code actually has
(bulleted/numbered list item, quote, to-do, callout, column, column-list —
paragraph is excluded: its struct has no `children` field), decoding a block
of that kind whose payload carries a `children` array of length N yields a
`some`-children sequence of length N, elementwise in array order, and a
payload without a `children` key yields `none` (absent, not empty). -/
theorem C6_children (j : Json) (id : String) (parent : Parent)
    (ct lt : DateValue) (cb lb : PartialUser) (hc ar : Bool)
    (h1 : parseWith jdString "id" j = .ok id)
    (h2 : parseWith jdParent "parent" j = .ok parent)
    (h3 : parseWith jdDateValue "created_time" j = .ok ct)
    (h4 : parseWith jdDateValue "last_edited_time" j = .ok lt)
    (h5 : parseWith jdPartialUser "created_by" j = .ok cb)
    (h6 : parseWith jdPartialUser "last_edited_by" j = .ok lb)
    (h7 : parseWith jdBool "has_children" j = .ok hc)
    (h8 : parseWith jdBool "archived" j = .ok ar) :
    (∀ xs bs, jdBlocks xs = .ok bs → bs.length = xs.length) ∧
    (∀ x xs bs, jdBlocks (x :: xs) = .ok bs →
      ∃ b bs2, decodeBlock x = .ok b ∧ jdBlocks xs = .ok bs2 ∧ bs = b :: bs2) ∧
    (∀ vfs color rt,
      j.get "type" = some (Json.str "bulleted_list_item") →
      j.get "bulleted_list_item" = some (Json.obj vfs) →
      jfield (Json.obj vfs) "color" jdColor = .ok color →
      jfield (Json.obj vfs) "rich_text" (jdArr jdRichText) = .ok rt →
      (((Json.obj vfs).get "children" = none →
        decodeBlock j = .ok (Block.mk id parent ct lt cb lb hc ar
          (.BulletedListItem (ListItem.mk color rt none)))) ∧
       (∀ xs bs, (Json.obj vfs).get "children" = some (Json.arr xs) →
        jdBlocks xs = .ok bs →
        decodeBlock j = .ok (Block.mk id parent ct lt cb lb hc ar
          (.BulletedListItem (ListItem.mk color rt (some bs)))) ∧
        bs.length = xs.length))) ∧
    (∀ vfs color rt,
      j.get "type" = some (Json.str "numbered_list_item") →
      j.get "numbered_list_item" = some (Json.obj vfs) →
      jfield (Json.obj vfs) "color" jdColor = .ok color →
      jfield (Json.obj vfs) "rich_text" (jdArr jdRichText) = .ok rt →
      (((Json.obj vfs).get "children" = none →
        decodeBlock j = .ok (Block.mk id parent ct lt cb lb hc ar
          (.NumberedListItem (ListItem.mk color rt none)))) ∧
       (∀ xs bs, (Json.obj vfs).get "children" = some (Json.arr xs) →
        jdBlocks xs = .ok bs →
        decodeBlock j = .ok (Block.mk id parent ct lt cb lb hc ar
          (.NumberedListItem (ListItem.mk color rt (some bs)))) ∧
        bs.length = xs.length))) ∧
    (∀ vfs color rt,
      j.get "type" = some (Json.str "quote") →
      j.get "quote" = some (Json.obj vfs) →
      jfield (Json.obj vfs) "color" jdColor = .ok color →
      jfield (Json.obj vfs) "rich_text" (jdArr jdRichText) = .ok rt →
      (((Json.obj vfs).get "children" = none →
        decodeBlock j = .ok (Block.mk id parent ct lt cb lb hc ar
          (.Quote (Quote.mk color rt none)))) ∧
       (∀ xs bs, (Json.obj vfs).get "children" = some (Json.arr xs) →
        jdBlocks xs = .ok bs →
        decodeBlock j = .ok (Block.mk id parent ct lt cb lb hc ar
          (.Quote (Quote.mk color rt (some bs)))) ∧
        bs.length = xs.length))) ∧
    (∀ vfs color rt checked,
      j.get "type" = some (Json.str "to_do") →
      j.get "to_do" = some (Json.obj vfs) →
      jfield (Json.obj vfs) "color" jdColor = .ok color →
      jfield (Json.obj vfs) "rich_text" (jdArr jdRichText) = .ok rt →
      jfieldOpt (Json.obj vfs) "checked" jdBool = .ok checked →
      (((Json.obj vfs).get "children" = none →
        decodeBlock j = .ok (Block.mk id parent ct lt cb lb hc ar
          (.ToDo (ToDoItem.mk color rt checked none)))) ∧
       (∀ xs bs, (Json.obj vfs).get "children" = some (Json.arr xs) →
        jdBlocks xs = .ok bs →
        decodeBlock j = .ok (Block.mk id parent ct lt cb lb hc ar
          (.ToDo (ToDoItem.mk color rt checked (some bs)))) ∧
        bs.length = xs.length))) ∧
    (∀ vfs icon color rt,
      j.get "type" = some (Json.str "callout") →
      j.get "callout" = some (Json.obj vfs) →
      jfieldOpt (Json.obj vfs) "icon" jdIcon = .ok icon →
      jfield (Json.obj vfs) "color" jdColor = .ok color →
      jfield (Json.obj vfs) "rich_text" (jdArr jdRichText) = .ok rt →
      (((Json.obj vfs).get "children" = none →
        decodeBlock j = .ok (Block.mk id parent ct lt cb lb hc ar
          (.Callout (Callout.mk icon color rt none)))) ∧
       (∀ xs bs, (Json.obj vfs).get "children" = some (Json.arr xs) →
        jdBlocks xs = .ok bs →
        decodeBlock j = .ok (Block.mk id parent ct lt cb lb hc ar
          (.Callout (Callout.mk icon color rt (some bs)))) ∧
        bs.length = xs.length))) ∧
    (∀ vfs,
      j.get "type" = some (Json.str "column") →
      j.get "column" = some (Json.obj vfs) →
      (((Json.obj vfs).get "children" = none →
        decodeBlock j = .ok (Block.mk id parent ct lt cb lb hc ar
          (.Column (Column.mk none)))) ∧
       (∀ xs bs, (Json.obj vfs).get "children" = some (Json.arr xs) →
        jdBlocks xs = .ok bs →
        decodeBlock j = .ok (Block.mk id parent ct lt cb lb hc ar
          (.Column (Column.mk (some bs)))) ∧
        bs.length = xs.length))) ∧
    (∀ vfs,
      j.get "type" = some (Json.str "column_list") →
      j.get "column_list" = some (Json.obj vfs) →
      (((Json.obj vfs).get "children" = none →
        decodeBlock j = .ok (Block.mk id parent ct lt cb lb hc ar
          (.ColumnList (ColumnList.mk none)))) ∧
       (∀ xs cs, (Json.obj vfs).get "children" = some (Json.arr xs) →
        jdColumns xs = .ok cs →
        decodeBlock j = .ok (Block.mk id parent ct lt cb lb hc ar
          (.ColumnList (ColumnList.mk (some cs)))) ∧
        cs.length = xs.length))) := by
  refine ⟨fun xs bs h => jdBlocks_length h,
    fun x xs bs h => jdBlocks_cons_inv h, ?_, ?_, ?_, ?_, ?_, ?_, ?_⟩
  · intro vfs color rt hty hv hcolor hrt
    exact ⟨fun hch => decodeBlock_mk h1 h2 h3 h4 h5 h6 h7 h8 (parseWith_str hty)
        (decodeBlockValue_bulleted hv (jdListItem_mk hcolor hrt (jdChildren_none hch))),
      fun xs bs hch hbs =>
        ⟨decodeBlock_mk h1 h2 h3 h4 h5 h6 h7 h8 (parseWith_str hty)
          (decodeBlockValue_bulleted hv
            (jdListItem_mk hcolor hrt (jdChildren_arr hch hbs))),
         jdBlocks_length hbs⟩⟩
  · intro vfs color rt hty hv hcolor hrt
    exact ⟨fun hch => decodeBlock_mk h1 h2 h3 h4 h5 h6 h7 h8 (parseWith_str hty)
        (decodeBlockValue_numbered hv (jdListItem_mk hcolor hrt (jdChildren_none hch))),
      fun xs bs hch hbs =>
        ⟨decodeBlock_mk h1 h2 h3 h4 h5 h6 h7 h8 (parseWith_str hty)
          (decodeBlockValue_numbered hv
            (jdListItem_mk hcolor hrt (jdChildren_arr hch hbs))),
         jdBlocks_length hbs⟩⟩
  · intro vfs color rt hty hv hcolor hrt
    exact ⟨fun hch => decodeBlock_mk h1 h2 h3 h4 h5 h6 h7 h8 (parseWith_str hty)
        (decodeBlockValue_quote hv (jdQuote_mk hcolor hrt (jdChildren_none hch))),
      fun xs bs hch hbs =>
        ⟨decodeBlock_mk h1 h2 h3 h4 h5 h6 h7 h8 (parseWith_str hty)
          (decodeBlockValue_quote hv
            (jdQuote_mk hcolor hrt (jdChildren_arr hch hbs))),
         jdBlocks_length hbs⟩⟩
  · intro vfs color rt checked hty hv hcolor hrt hchk
    exact ⟨fun hch => decodeBlock_mk h1 h2 h3 h4 h5 h6 h7 h8 (parseWith_str hty)
        (decodeBlockValue_to_do hv
          (jdToDo_mk hcolor hrt hchk (jdChildren_none hch))),
      fun xs bs hch hbs =>
        ⟨decodeBlock_mk h1 h2 h3 h4 h5 h6 h7 h8 (parseWith_str hty)
          (decodeBlockValue_to_do hv
            (jdToDo_mk hcolor hrt hchk (jdChildren_arr hch hbs))),
         jdBlocks_length hbs⟩⟩
  · intro vfs icon color rt hty hv hicon hcolor hrt
    exact ⟨fun hch => decodeBlock_mk h1 h2 h3 h4 h5 h6 h7 h8 (parseWith_str hty)
        (decodeBlockValue_callout hv
          (jdCallout_mk hicon hcolor hrt (jdChildren_none hch))),
      fun xs bs hch hbs =>
        ⟨decodeBlock_mk h1 h2 h3 h4 h5 h6 h7 h8 (parseWith_str hty)
          (decodeBlockValue_callout hv
            (jdCallout_mk hicon hcolor hrt (jdChildren_arr hch hbs))),
         jdBlocks_length hbs⟩⟩
  · intro vfs hty hv
    exact ⟨fun hch => decodeBlock_mk h1 h2 h3 h4 h5 h6 h7 h8 (parseWith_str hty)
        (decodeBlockValue_column hv (jdColumn_mk (jdChildren_none hch))),
      fun xs bs hch hbs =>
        ⟨decodeBlock_mk h1 h2 h3 h4 h5 h6 h7 h8 (parseWith_str hty)
          (decodeBlockValue_column hv (jdColumn_mk (jdChildren_arr hch hbs))),
         jdBlocks_length hbs⟩⟩
  · intro vfs hty hv
    exact ⟨fun hch => decodeBlock_mk h1 h2 h3 h4 h5 h6 h7 h8 (parseWith_str hty)
        (decodeBlockValue_column_list hv (jdColumnList_none hch)),
      fun xs cs hch hcs =>
        ⟨decodeBlock_mk h1 h2 h3 h4 h5 h6 h7 h8 (parseWith_str hty)
          (decodeBlockValue_column_list hv (jdColumnList_arr hch hcs)),
         jdColumns_length hcs⟩⟩


/-- A valid heading child block. -/
def c6child : Json := Json.obj [
  ("id", Json.str "c1"),
  ("parent", Json.obj [("type", Json.str "block_id"), ("block_id", Json.str "b0")]),
  ("created_time", Json.str "2023-01-02T03:04:05Z"),
  ("last_edited_time", Json.str "2023-01-02T03:04:05Z"),
  ("created_by", Json.obj [("id", Json.str "u")]),
  ("last_edited_by", Json.obj [("id", Json.str "u")]),
  ("has_children", Json.bool false),
  ("archived", Json.bool false),
  ("type", Json.str "heading_1"),
  ("heading_1", Json.obj [("color", Json.str "default"), ("rich_text", Json.arr []),
    ("is_toggleable", Json.bool false)])]

def c6childBlock : Block := Block.mk "c1" (.Block ⟨"b0"⟩)
  (.DateTime ⟨2023, 1, 2, 3, 4, 5, 0⟩) (.DateTime ⟨2023, 1, 2, 3, 4, 5, 0⟩)
  ⟨"u"⟩ ⟨"u"⟩ false false (.Heading1 ⟨.Default, [], false⟩)

/-- A paragraph block whose payload carries a one-element `children` array. -/
def c6input : Json := Json.obj [
  ("id", Json.str "p1"),
  ("parent", Json.obj [("type", Json.str "page_id"), ("page_id", Json.str "pg")]),
  ("created_time", Json.str "2023-01-02T03:04:05Z"),
  ("last_edited_time", Json.str "2023-01-02T03:04:05Z"),
  ("created_by", Json.obj [("id", Json.str "u")]),
  ("last_edited_by", Json.obj [("id", Json.str "u")]),
  ("has_children", Json.bool true),
  ("archived", Json.bool false),
  ("type", Json.str "paragraph"),
  ("paragraph", Json.obj [("color", Json.str "default"), ("rich_text", Json.arr []),
    ("children", Json.arr [c6child])])]

/-- C6 (counterexample): a paragraph block with a `children` array of length
one decodes to a `Paragraph` content of color and rich text only — the
decoded value carries no children sequence at all (the `Paragraph` struct has
no `children` field), so the claim fails for the paragraph kind. -/
theorem C6_children_counterexample :
    (c6input.get "paragraph").bind (fun p => p.get "children") =
      some (Json.arr [c6child]) ∧
    decodeBlock c6input = .ok (Block.mk "p1" (.Page ⟨"pg"⟩)
      (.DateTime ⟨2023, 1, 2, 3, 4, 5, 0⟩) (.DateTime ⟨2023, 1, 2, 3, 4, 5, 0⟩)
      ⟨"u"⟩ ⟨"u"⟩ true false (.Paragraph ⟨.Default, []⟩)) := by
  refine ⟨rfl, decodeBlock_mk rfl rfl rfl rfl rfl rfl rfl rfl rfl ?_⟩
  rw [decodeBlockValue.eq_def]
  rfl

/-- A to-do block whose payload carries a one-element `children` array. -/
def c6winput : Json := Json.obj [
  ("id", Json.str "p2"),
  ("parent", Json.obj [("type", Json.str "page_id"), ("page_id", Json.str "pg")]),
  ("created_time", Json.str "2023-01-02T03:04:05Z"),
  ("last_edited_time", Json.str "2023-01-02T03:04:05Z"),
  ("created_by", Json.obj [("id", Json.str "u")]),
  ("last_edited_by", Json.obj [("id", Json.str "u")]),
  ("has_children", Json.bool true),
  ("archived", Json.bool false),
  ("type", Json.str "to_do"),
  ("to_do", Json.obj [("color", Json.str "default"), ("rich_text", Json.arr []),
    ("children", Json.arr [c6child])])]

/-- C6 (witness): the to-do block with one child decodes with a one-element
children sequence holding exactly the decoded child. -/
theorem C6_children_witness :
    decodeBlock c6winput = .ok (Block.mk "p2" (.Page ⟨"pg"⟩)
      (.DateTime ⟨2023, 1, 2, 3, 4, 5, 0⟩) (.DateTime ⟨2023, 1, 2, 3, 4, 5, 0⟩)
      ⟨"u"⟩ ⟨"u"⟩ true false (.ToDo (ToDoItem.mk .Default [] none (some [c6childBlock])))) ∧
    [c6childBlock].length = [c6child].length := by
  have hchild : decodeBlock c6child = .ok c6childBlock :=
    decodeBlock_mk rfl rfl rfl rfl rfl rfl rfl rfl rfl
      (by rw [decodeBlockValue.eq_def]; rfl)
  have hbs : jdBlocks [c6child] = .ok [c6childBlock] := by
    rw [jdBlocks.eq_def]
    simp [hchild, jdBlocks_nil]
  have h := C6_children c6winput "p2" (.Page ⟨"pg"⟩)
    (.DateTime ⟨2023, 1, 2, 3, 4, 5, 0⟩) (.DateTime ⟨2023, 1, 2, 3, 4, 5, 0⟩)
    ⟨"u"⟩ ⟨"u"⟩ true false rfl rfl rfl rfl rfl rfl rfl rfl
  exact (h.2.2.2.2.2.1 _ .Default [] none rfl rfl rfl rfl rfl).2 [c6child]
    [c6childBlock] rfl hbs


/- ----------------------------------------------------------------
   C3 / C4: date decoding and formatting.
---------------------------------------------------------------- -/

@[simp] theorem obind_some {α β : Type} (a : α) (f : α → Option β) :
    (some a >>= f) = f a := rfl

@[simp] theorem obind_none {α β : Type} (f : α → Option β) :
    ((none : Option α) >>= f) = none := rfl

theorem isDig_bounds {c : Char} (h : isDig c = true) :
    48 ≤ c.toNat ∧ c.toNat ≤ 57 := by
  simp [isDig] at h
  exact h

theorem digitVal_le {c : Char} (h : isDig c = true) : digitVal c ≤ 9 := by
  obtain ⟨h1, h2⟩ := isDig_bounds h
  simp only [digitVal]
  omega

theorem isDig_digitChar {d : Nat} (h : d ≤ 9) : isDig (digitChar d) = true := by
  interval_cases d <;> rfl

theorem digitVal_digitChar {d : Nat} (h : d ≤ 9) : digitVal (digitChar d) = d := by
  interval_cases d <;> rfl

theorem digitChar_digitVal {c : Char} (h : isDig c = true) :
    digitChar (digitVal c) = c := by
  obtain ⟨h1, h2⟩ := isDig_bounds h
  have hc : c = Char.ofNat c.toNat := (Char.ofNat_toNat c).symm
  have hd : c.toNat = 48 ∨ c.toNat = 49 ∨ c.toNat = 50 ∨ c.toNat = 51 ∨
      c.toNat = 52 ∨ c.toNat = 53 ∨ c.toNat = 54 ∨ c.toNat = 55 ∨
      c.toNat = 56 ∨ c.toNat = 57 := by omega
  rcases hd with h3|h3|h3|h3|h3|h3|h3|h3|h3|h3 <;> rw [hc, h3] <;> rfl

theorem expectCh_self (c : Char) (r : List Char) : expectCh c (c :: r) = some r := by
  simp [expectCh]

theorem read2_digits {a b : Char} (ha : isDig a = true) (hb : isDig b = true)
    (rest : List Char) :
    read2 (a :: b :: rest) = some (digitVal a * 10 + digitVal b, rest) := by
  simp [read2, ha, hb]

theorem read4_digits {a b c d : Char} (ha : isDig a = true) (hb : isDig b = true)
    (hc : isDig c = true) (hd : isDig d = true) (rest : List Char) :
    read4 (a :: b :: c :: d :: rest) =
      some (((digitVal a * 10 + digitVal b) * 10 + digitVal c) * 10 + digitVal d, rest) := by
  simp [read4, ha, hb, hc, hd]

theorem read2_pad2 {n : Nat} (h : n ≤ 99) (rest : List Char) :
    read2 (pad2 n ++ rest) = some (n, rest) := by
  have h1 : n / 10 % 10 ≤ 9 := by omega
  have h2 : n % 10 ≤ 9 := by omega
  simp only [pad2, List.cons_append, List.nil_append]
  rw [read2_digits (isDig_digitChar h1) (isDig_digitChar h2),
    digitVal_digitChar h1, digitVal_digitChar h2]
  simp only [Option.some.injEq, Prod.mk.injEq]
  refine ⟨by omega, by simp⟩

theorem read4_pad4 {n : Nat} (h : n ≤ 9999) (rest : List Char) :
    read4 (pad4 n ++ rest) = some (n, rest) := by
  have h1 : n / 1000 % 10 ≤ 9 := by omega
  have h2 : n / 100 % 10 ≤ 9 := by omega
  have h3 : n / 10 % 10 ≤ 9 := by omega
  have h4 : n % 10 ≤ 9 := by omega
  simp only [pad4, List.cons_append, List.nil_append]
  rw [read4_digits (isDig_digitChar h1) (isDig_digitChar h2) (isDig_digitChar h3)
    (isDig_digitChar h4), digitVal_digitChar h1, digitVal_digitChar h2,
    digitVal_digitChar h3, digitVal_digitChar h4]
  simp only [Option.some.injEq, Prod.mk.injEq]
  refine ⟨by omega, by simp⟩

theorem pad4_digits {a b c d : Char} (ha : isDig a = true) (hb : isDig b = true)
    (hc : isDig c = true) (hd : isDig d = true) :
    pad4 (((digitVal a * 10 + digitVal b) * 10 + digitVal c) * 10 + digitVal d) =
      [a, b, c, d] := by
  have ha9 := digitVal_le ha
  have hb9 := digitVal_le hb
  have hc9 := digitVal_le hc
  have hd9 := digitVal_le hd
  simp only [pad4]
  rw [show (((digitVal a * 10 + digitVal b) * 10 + digitVal c) * 10 + digitVal d)
      / 1000 % 10 = digitVal a from by omega,
    show (((digitVal a * 10 + digitVal b) * 10 + digitVal c) * 10 + digitVal d)
      / 100 % 10 = digitVal b from by omega,
    show (((digitVal a * 10 + digitVal b) * 10 + digitVal c) * 10 + digitVal d)
      / 10 % 10 = digitVal c from by omega,
    show (((digitVal a * 10 + digitVal b) * 10 + digitVal c) * 10 + digitVal d)
      % 10 = digitVal d from by omega,
    digitChar_digitVal ha, digitChar_digitVal hb, digitChar_digitVal hc,
    digitChar_digitVal hd]

theorem pad2_digits {a b : Char} (ha : isDig a = true) (hb : isDig b = true) :
    pad2 (digitVal a * 10 + digitVal b) = [a, b] := by
  have ha9 := digitVal_le ha
  have hb9 := digitVal_le hb
  simp only [pad2]
  rw [show (digitVal a * 10 + digitVal b) / 10 % 10 = digitVal a from by omega,
    show (digitVal a * 10 + digitVal b) % 10 = digitVal b from by omega,
    digitChar_digitVal ha, digitChar_digitVal hb]

theorem isBareDate_shape {cs : List Char} (h : isBareDate cs = true) :
    ∃ c1 c2 c3 c4 c5 c6 c7 c8,
      cs = [c1, c2, c3, c4, '-', c5, c6, '-', c7, c8] ∧
      isDig c1 = true ∧ isDig c2 = true ∧ isDig c3 = true ∧ isDig c4 = true ∧
      isDig c5 = true ∧ isDig c6 = true ∧ isDig c7 = true ∧ isDig c8 = true := by
  rcases cs with _|⟨c1, _|⟨c2, _|⟨c3, _|⟨c4, _|⟨c5, _|⟨c6, _|⟨c7, _|⟨c8, _|⟨c9,
    _|⟨c10, _|⟨c11, rest⟩⟩⟩⟩⟩⟩⟩⟩⟩⟩⟩ <;>
    simp only [isBareDate, Bool.and_eq_true, decide_eq_true_eq, and_assoc] at h
  all_goals try exact Bool.noConfusion h
  obtain ⟨h1, h2, h3, h4, h5, h6, h7, h8, h9, h10⟩ := h
  subst h5
  subst h8
  exact ⟨c1, c2, c3, c4, c6, c7, c9, c10, rfl, h1, h2, h3, h4, h6, h7, h9, h10⟩


theorem string_eq_of_data {a b : String} (h : a.data = b.data) : a = b := by
  cases a
  cases b
  simp_all

/-- C3 (amended): for bare-date strings that chrono accepts as valid calendar
dates (equivalently: whenever decoding succeeds), formatting the decoded
`DateValue` appends `T00:00:00+00:00`. -/
theorem C3_bare_date_format (s : String) (v : DateValue)
    (hbare : isBareDate s.data = true)
    (hok : DateValue.fromString s = .ok v) :
    DateValue.render v = s ++ "T00:00:00+00:00" := by
  obtain ⟨c1, c2, c3, c4, c5, c6, c7, c8, hcs, h1, h2, h3, h4, h5, h6, h7, h8⟩ :=
    isBareDate_shape hbare
  unfold DateValue.fromString DateValue.fromChars at hok
  rw [if_pos hbare, hcs] at hok
  have e2 : ∀ r : List Char, read2 ('0' :: '0' :: r) = some (0, r) := fun r => rfl
  have e3 : ∀ r : List Char, expectCh ':' (':' :: r) = some r := fun r => rfl
  have e4 : readFrac ['Z'] = some (0, ['Z']) := rfl
  have e5 : readOffset ['Z'] = some (0, []) := rfl
  have e6 : isSep 'T' = true := rfl
  simp only [List.cons_append, List.nil_append, parseRfc3339,
    read4_digits h1 h2 h3 h4, obind_some, expectCh_self,
    read2_digits h5 h6, read2_digits h7 h8, e2, e3, e4, e5, e6,
    eq_self_iff_true, if_true] at hok
  by_cases hv2 : 1 ≤ digitVal c5 * 10 + digitVal c6 ∧
      digitVal c5 * 10 + digitVal c6 ≤ 12 ∧
      1 ≤ digitVal c7 * 10 + digitVal c8 ∧
      digitVal c7 * 10 + digitVal c8 ≤
        daysInMonth (((digitVal c1 * 10 + digitVal c2) * 10 + digitVal c3) * 10 +
          digitVal c4 : Nat) (digitVal c5 * 10 + digitVal c6)
  · rw [if_pos ⟨trivial, hv2.1, hv2.2.1, hv2.2.2.1, hv2.2.2.2, by omega, by omega,
      by omega⟩, if_neg (by omega : ¬ (0 : Nat) = 60)] at hok
    simp only [Except.ok.injEq] at hok
    subst hok
    have hY : (((digitVal c1 * 10 + digitVal c2) * 10 + digitVal c3) * 10 +
        digitVal c4) ≤ 9999 := by
      have := digitVal_le h1
      have := digitVal_le h2
      have := digitVal_le h3
      have := digitVal_le h4
      omega
    have hyc : yearChars ((((digitVal c1 * 10 + digitVal c2) * 10 + digitVal c3) * 10 +
        digitVal c4 : Nat) : Int) =
        pad4 (((digitVal c1 * 10 + digitVal c2) * 10 + digitVal c3) * 10 + digitVal c4) := by
      unfold yearChars
      rw [if_pos ⟨by exact_mod_cast Nat.zero_le _, by exact_mod_cast hY⟩]
      congr 1
    apply string_eq_of_data
    rw [String.data_append, hcs]
    show renderCivil _ = _
    simp only [renderCivil, hyc, pad4_digits h1 h2 h3 h4, pad2_digits h5 h6,
      pad2_digits h7 h8,
      show secondChars 0 0 = ['0', '0'] from rfl,
      show pad2 0 = ['0', '0'] from rfl,
      show ("T00:00:00+00:00" : String).data =
        ['T', '0', '0', ':', '0', '0', ':', '0', '0', '+', '0', '0', ':', '0', '0']
        from rfl]
    simp
  · rw [if_neg (fun hh => hv2 ⟨hh.2.1, hh.2.2.1, hh.2.2.2.1, hh.2.2.2.2.1⟩)] at hok
    simp at hok


/-- C3 (counterexample): `"2023-13-01"` matches `^\\d\x7b4\x7d-\\d\x7b2\x7d-\\d\x7b2\x7d$`
exactly, yet decoding fails (month 13 is rejected by the chrono parse), so no
formatted output exists for it, contrary to the claim's universal statement
over all regex-matching strings. -/
theorem C3_bare_date_counterexample :
    DateValue.fromString "2023-13-01" = .error (.ChronoParse chronoMsg) := rfl

/-- C3 (witness): the amended property at `"2023-05-17"`. -/
theorem C3_bare_date_format_witness :
    DateValue.render (.Date 2023 5 17) = "2023-05-17T00:00:00+00:00" :=
  (C3_bare_date_format "2023-05-17" (.Date 2023 5 17) rfl rfl).trans (by rfl)


theorem read4_le {cs r : List Char} {n : Nat} (h : read4 cs = some (n, r)) :
    n ≤ 9999 := by
  rcases cs with _ | ⟨a, cs⟩
  · simp [read4] at h
  rcases cs with _ | ⟨b, cs⟩
  · simp [read4] at h
  rcases cs with _ | ⟨c, cs⟩
  · simp [read4] at h
  rcases cs with _ | ⟨d, cs⟩
  · simp [read4] at h
  simp only [read4, Option.ite_none_right_eq_some, Option.some.injEq,
    Prod.mk.injEq, Bool.and_eq_true] at h
  obtain ⟨⟨⟨⟨da, db⟩, dc⟩, dd⟩, hval, -⟩ := h
  have := digitVal_le da
  have := digitVal_le db
  have := digitVal_le dc
  have := digitVal_le dd
  omega

theorem mem_of_takeWhile {p : Char → Bool} {l : List Char} {x : Char}
    (h : x ∈ l.takeWhile p) : p x = true := by
  induction l with
  | nil => simp [List.takeWhile] at h
  | cons c l ih =>
      rw [List.takeWhile_cons] at h
      by_cases hc : p c
      · rw [if_pos hc] at h
        rcases List.mem_cons.mp h with rfl | h2
        · exact hc
        · exact ih h2
      · rw [if_neg hc] at h
        simp at h

theorem fracFold_lt (ds : List Char) (a : Nat) (hds : ∀ c ∈ ds, isDig c = true) :
    ds.foldl (fun a c => a * 10 + digitVal c) a < (a + 1) * 10 ^ ds.length := by
  induction ds generalizing a with
  | nil => simp
  | cons c ds ih =>
      simp only [List.foldl_cons, List.length_cons]
      have hc := digitVal_le (hds c (by simp))
      have hrec := ih (a * 10 + digitVal c) (fun x hx => hds x (by simp [hx]))
      have h2 : (a * 10 + digitVal c + 1) * 10 ^ ds.length ≤
          (a + 1) * 10 ^ (ds.length + 1) := by
        rw [pow_succ]
        calc (a * 10 + digitVal c + 1) * 10 ^ ds.length
            ≤ ((a + 1) * 10) * 10 ^ ds.length :=
              Nat.mul_le_mul_right _ (by omega)
          _ = (a + 1) * (10 ^ ds.length * 10) := by ring
      exact lt_of_lt_of_le hrec h2

theorem fracVal_lt {ds : List Char} (hds : ∀ c ∈ ds, isDig c = true) :
    fracVal ds < 1000000000 := by
  unfold fracVal
  have hb := fracFold_lt (ds.take 9) 0
    (fun c hc => hds c (List.mem_of_mem_take hc))
  have hlen : (ds.take 9).length = min ds.length 9 := by
    simp [List.length_take, Nat.min_comm]
  rw [hlen] at hb
  have hb2 : ((ds.take 9).foldl (fun a c => a * 10 + digitVal c) 0) <
      10 ^ (min ds.length 9) := by simpa using hb
  calc ((ds.take 9).foldl (fun a c => a * 10 + digitVal c) 0) *
        10 ^ (9 - min ds.length 9)
      < 10 ^ (min ds.length 9) * 10 ^ (9 - min ds.length 9) :=
        Nat.mul_lt_mul_of_lt_of_le hb2 (le_refl _) (by positivity)
    _ = 10 ^ 9 := by
        rw [← pow_add]
        congr 1
        omega
    _ = 1000000000 := by norm_num

theorem readFrac_lt {cs r : List Char} {n : Nat} (h : readFrac cs = some (n, r)) :
    n < 1000000000 := by
  unfold readFrac at h
  split at h
  · rename_i rest
    simp only [] at h
    split at h
    · simp at h
    · simp only [Option.some.injEq, Prod.mk.injEq] at h
      obtain ⟨h1, -⟩ := h
      subst h1
      exact fracVal_lt (fun c hc => mem_of_takeWhile hc)
  · simp only [Option.some.injEq, Prod.mk.injEq] at h
    omega

theorem readOffMag_le {cs r : List Char} {m : Nat}
    (h : readOffMag cs = some (m, r)) : m ≤ 1439 := by
  unfold readOffMag at h
  cases h1 : read2 cs <;> rw [h1] at h <;> simp only [obind_some, obind_none] at h
  · simp at h
  · rename_i v1
    obtain ⟨hh, cs1⟩ := v1
    simp only [] at h
    cases h2 : expectCh ':' cs1 <;> rw [h2] at h <;>
      simp only [obind_some, obind_none] at h
    · simp at h
    · rename_i cs2
      cases h3 : read2 cs2 <;> rw [h3] at h <;>
        simp only [obind_some, obind_none] at h
      · simp at h
      · rename_i v2
        obtain ⟨mm, cs3⟩ := v2
        simp only [] at h
        split at h
        · rename_i hcond
          simp only [Option.some.injEq, Prod.mk.injEq] at h
          omega
        · simp at h

theorem readOffset_bound {cs r : List Char} {o : Int}
    (h : readOffset cs = some (o, r)) : -1439 ≤ o ∧ o ≤ 1439 := by
  unfold readOffset at h
  split at h
  · simp only [Option.some.injEq, Prod.mk.injEq] at h
    omega
  · simp only [Option.some.injEq, Prod.mk.injEq] at h
    omega
  · rename_i rest
    cases hm : readOffMag rest <;> rw [hm] at h <;> simp [Option.map] at h
    rename_i v
    obtain ⟨m, r2⟩ := v
    have := readOffMag_le hm
    simp only [] at h
    obtain ⟨h1, -⟩ := h
    omega
  · rename_i rest
    cases hm : readOffMag rest <;> rw [hm] at h <;> simp [Option.map] at h
    rename_i v
    obtain ⟨m, r2⟩ := v
    have := readOffMag_le hm
    simp only [] at h
    obtain ⟨h1, -⟩ := h
    omega
  · simp at h


/-- Validity of a civil UTC time: what `DateTime<Utc>` guarantees. -/
def CivilTime.Valid (c : CivilTime) : Prop :=
  1 ≤ c.month ∧ c.month ≤ 12 ∧ 1 ≤ c.day ∧ c.day ≤ daysInMonth c.year c.month ∧
  c.hour ≤ 23 ∧ c.minute ≤ 59 ∧ c.second ≤ 59 ∧ c.nanos < 2000000000 ∧
  (1000000000 ≤ c.nanos → c.second = 59)

theorem parseRfc3339_valid {cs : List Char} {p : Rfc3339Parts}
    (h : parseRfc3339 cs = some p) :
    p.year ≤ 9999 ∧ 1 ≤ p.month ∧ p.month ≤ 12 ∧ 1 ≤ p.day ∧
    p.day ≤ daysInMonth (p.year : Int) p.month ∧ p.hour ≤ 23 ∧ p.minute ≤ 59 ∧
    p.second ≤ 59 ∧ p.nanos < 2000000000 ∧
    (1000000000 ≤ p.nanos → p.second = 59) ∧
    -1439 ≤ p.offMinutes ∧ p.offMinutes ≤ 1439 := by
  unfold parseRfc3339 at h
  cases h1 : read4 cs <;> rw [h1] at h <;> simp only [obind_some, obind_none] at h
  · simp at h
  rename_i v1
  obtain ⟨y, cs1⟩ := v1
  have hy := read4_le h1
  simp only [] at h
  cases h2 : expectCh '-' cs1 <;> rw [h2] at h <;>
    simp only [obind_some, obind_none] at h
  · simp at h
  rename_i cs2
  cases h3 : read2 cs2 <;> rw [h3] at h <;>
    simp only [obind_some, obind_none] at h
  · simp at h
  rename_i v2
  obtain ⟨mo, cs3⟩ := v2
  simp only [] at h
  cases h4 : expectCh '-' cs3 <;> rw [h4] at h <;>
    simp only [obind_some, obind_none] at h
  · simp at h
  rename_i cs4
  cases h5 : read2 cs4 <;> rw [h5] at h <;>
    simp only [obind_some, obind_none] at h
  · simp at h
  rename_i v3
  obtain ⟨d, cs5⟩ := v3
  simp only [] at h
  rcases cs5 with _ | ⟨c0, cs6⟩
  · simp at h
  simp only [] at h
  by_cases hsep : isSep c0 = true
  · rw [if_pos hsep] at h
    cases h6 : read2 cs6 <;> rw [h6] at h <;>
      simp only [obind_some, obind_none] at h
    · simp at h
    rename_i v4
    obtain ⟨hh, cs7⟩ := v4
    simp only [] at h
    cases h7 : expectCh ':' cs7 <;> rw [h7] at h <;>
      simp only [obind_some, obind_none] at h
    · simp at h
    rename_i cs8
    cases h8 : read2 cs8 <;> rw [h8] at h <;>
      simp only [obind_some, obind_none] at h
    · simp at h
    rename_i v5
    obtain ⟨mi, cs9⟩ := v5
    simp only [] at h
    cases h9 : expectCh ':' cs9 <;> rw [h9] at h <;>
      simp only [obind_some, obind_none] at h
    · simp at h
    rename_i cs10
    cases h10 : read2 cs10 <;> rw [h10] at h <;>
      simp only [obind_some, obind_none] at h
    · simp at h
    rename_i v6
    obtain ⟨s, cs11⟩ := v6
    simp only [] at h
    cases h11 : readFrac cs11 <;> rw [h11] at h <;>
      simp only [obind_some, obind_none] at h
    · simp at h
    rename_i v7
    obtain ⟨nf, cs12⟩ := v7
    have hnf := readFrac_lt h11
    simp only [] at h
    cases h12 : readOffset cs12 <;> rw [h12] at h <;>
      simp only [obind_some, obind_none] at h
    · simp at h
    rename_i v8
    obtain ⟨off, cs13⟩ := v8
    have hoff := readOffset_bound h12
    simp only [] at h
    split at h
    · rename_i hcond
      obtain ⟨-, hmo1, hmo2, hd1, hd2, hhh, hmi, hs⟩ := hcond
      split at h
      · rename_i hs60
        simp only [Option.some.injEq] at h
        subst h
        dsimp only
        refine ⟨hy, hmo1, hmo2, hd1, hd2, hhh, hmi, by omega, by omega,
          fun _ => by omega, hoff.1, hoff.2⟩
      · rename_i hs60
        simp only [Option.some.injEq] at h
        subst h
        dsimp only
        refine ⟨hy, hmo1, hmo2, hd1, hd2, hhh, hmi, by omega, by omega,
          fun hc => absurd hc (by omega), hoff.1, hoff.2⟩
    · simp at h
  · rw [if_neg hsep] at h
    simp at h

theorem daysInMonth_pos {y : Int} {m : Nat} (h1 : 1 ≤ m) (h2 : m ≤ 12) :
    1 ≤ daysInMonth y m := by
  interval_cases m <;> cases hL : isLeap y <;> simp [daysInMonth, hL]

theorem daysInMonth_le {y : Int} {m : Nat} : daysInMonth y m ≤ 31 := by
  unfold daysInMonth
  split <;> first | omega | (split <;> omega)

theorem prevDay_valid {y : Int} {m d : Nat} (h1 : 1 ≤ m) (h2 : m ≤ 12)
    (h3 : 1 ≤ d) (h4 : d ≤ daysInMonth y m) :
    1 ≤ (prevDay y m d).2.1 ∧ (prevDay y m d).2.1 ≤ 12 ∧
    1 ≤ (prevDay y m d).2.2 ∧
    (prevDay y m d).2.2 ≤ daysInMonth (prevDay y m d).1 (prevDay y m d).2.1 := by
  unfold prevDay
  split
  · rename_i hd
    dsimp only
    exact ⟨h1, h2, by omega, by omega⟩
  · split
    · rename_i hm
      dsimp only
      exact ⟨by omega, by omega, daysInMonth_pos (by omega) (by omega), le_refl _⟩
    · dsimp only
      refine ⟨by omega, by omega, by omega, ?_⟩
      simp [daysInMonth]

theorem nextDay_valid {y : Int} {m d : Nat} (h1 : 1 ≤ m) (h2 : m ≤ 12)
    (h3 : 1 ≤ d) (h4 : d ≤ daysInMonth y m) :
    1 ≤ (nextDay y m d).2.1 ∧ (nextDay y m d).2.1 ≤ 12 ∧
    1 ≤ (nextDay y m d).2.2 ∧
    (nextDay y m d).2.2 ≤ daysInMonth (nextDay y m d).1 (nextDay y m d).2.1 := by
  unfold nextDay
  split
  · rename_i hd
    dsimp only
    exact ⟨h1, h2, by omega, by omega⟩
  · split
    · rename_i hm
      dsimp only
      exact ⟨by omega, by omega, by omega,
        daysInMonth_pos (by omega) (by omega)⟩
    · dsimp only
      refine ⟨by omega, by omega, by omega, ?_⟩
      simp [daysInMonth]

theorem utcCivil_valid {p : Rfc3339Parts}
    (hmo1 : 1 ≤ p.month) (hmo2 : p.month ≤ 12) (hd1 : 1 ≤ p.day)
    (hd2 : p.day ≤ daysInMonth (p.year : Int) p.month)
    (hh : p.hour ≤ 23) (hmi : p.minute ≤ 59) (hs : p.second ≤ 59)
    (hn : p.nanos < 2000000000) (hln : 1000000000 ≤ p.nanos → p.second = 59)
    (ho1 : -1439 ≤ p.offMinutes) (ho2 : p.offMinutes ≤ 1439) :
    (utcCivil p).Valid := by
  unfold utcCivil
  rcases hpd : prevDay (p.year : Int) p.month p.day with ⟨py, pm, pd⟩
  rcases hnd : nextDay (p.year : Int) p.month p.day with ⟨ny, nm, nd⟩
  have hvp := prevDay_valid hmo1 hmo2 hd1 hd2
  rw [hpd] at hvp
  dsimp only at hvp
  have hvn := nextDay_valid hmo1 hmo2 hd1 hd2
  rw [hnd] at hvn
  dsimp only at hvn
  dsimp only
  split
  · rename_i ht
    unfold CivilTime.Valid
    dsimp only
    exact ⟨hvp.1, hvp.2.1, hvp.2.2.1, hvp.2.2.2, by omega, by omega, hs, hn, hln⟩
  · split
    · rename_i ht1 ht2
      unfold CivilTime.Valid
      dsimp only
      exact ⟨hvn.1, hvn.2.1, hvn.2.2.1, hvn.2.2.2, by omega, by omega, hs, hn, hln⟩
    · rename_i ht1 ht2
      unfold CivilTime.Valid
      dsimp only
      exact ⟨hmo1, hmo2, hd1, hd2, by omega, by omega, hs, hn, hln⟩

theorem pad3_all_digits (n : Nat) : ∀ c ∈ pad3 n, isDig c = true := by
  intro c hc
  have h1 : n / 100 % 10 ≤ 9 := by omega
  have h2 : n / 10 % 10 ≤ 9 := by omega
  have h3 : n % 10 ≤ 9 := by omega
  simp only [pad3, List.mem_cons, List.not_mem_nil, or_false] at hc
  rcases hc with rfl | rfl | rfl
  · exact isDig_digitChar h1
  · exact isDig_digitChar h2
  · exact isDig_digitChar h3

theorem pad6_all_digits (n : Nat) : ∀ c ∈ pad6 n, isDig c = true := by
  intro c hc
  simp only [pad6, List.mem_append] at hc
  rcases hc with h | h
  · exact pad3_all_digits _ c h
  · exact pad3_all_digits _ c h

theorem pad9_all_digits (n : Nat) : ∀ c ∈ pad9 n, isDig c = true := by
  intro c hc
  simp only [pad9, List.mem_append] at hc
  rcases hc with (h | h) | h
  · exact pad3_all_digits _ c h
  · exact pad3_all_digits _ c h
  · exact pad3_all_digits _ c h

theorem takeWhile_digits_append {ds : List Char} (hds : ∀ c ∈ ds, isDig c = true)
    {r0 : Char} (hr : isDig r0 = false) (rest : List Char) :
    ((ds ++ r0 :: rest).takeWhile isDig = ds) ∧
    ((ds ++ r0 :: rest).dropWhile isDig = r0 :: rest) := by
  induction ds with
  | nil =>
      simp [List.takeWhile_cons, List.dropWhile_cons, hr]
  | cons c ds ih =>
      have hc : isDig c = true := hds c (by simp)
      have ih2 := ih (fun x hx => hds x (by simp [hx]))
      simp [List.takeWhile_cons, List.dropWhile_cons, hc, ih2.1, ih2.2]

theorem fracVal_pad3 {q : Nat} (h : q ≤ 999) : fracVal (pad3 q) = q * 1000000 := by
  have h1 : q / 100 % 10 ≤ 9 := by omega
  have h2 : q / 10 % 10 ≤ 9 := by omega
  have h3 : q % 10 ≤ 9 := by omega
  simp only [fracVal, pad3, List.take, List.foldl, List.length_cons,
    List.length_nil]
  rw [digitVal_digitChar h1, digitVal_digitChar h2, digitVal_digitChar h3]
  norm_num
  omega

theorem fracVal_pad6 {q : Nat} (h : q ≤ 999999) : fracVal (pad6 q) = q * 1000 := by
  have h1 : q / 1000 / 100 % 10 ≤ 9 := by omega
  have h2 : q / 1000 / 10 % 10 ≤ 9 := by omega
  have h3 : q / 1000 % 10 ≤ 9 := by omega
  have h4 : q % 1000 / 100 % 10 ≤ 9 := by omega
  have h5 : q % 1000 / 10 % 10 ≤ 9 := by omega
  have h6 : q % 1000 % 10 ≤ 9 := by omega
  simp only [fracVal, pad6, pad3, List.cons_append, List.nil_append, List.take,
    List.foldl, List.length_cons, List.length_nil]
  rw [digitVal_digitChar h1, digitVal_digitChar h2, digitVal_digitChar h3,
    digitVal_digitChar h4, digitVal_digitChar h5, digitVal_digitChar h6]
  norm_num
  omega

theorem fracVal_pad9 {q : Nat} (h : q ≤ 999999999) : fracVal (pad9 q) = q := by
  have h1 : q / 1000000 / 100 % 10 ≤ 9 := by omega
  have h2 : q / 1000000 / 10 % 10 ≤ 9 := by omega
  have h3 : q / 1000000 % 10 ≤ 9 := by omega
  have h4 : q / 1000 % 1000 / 100 % 10 ≤ 9 := by omega
  have h5 : q / 1000 % 1000 / 10 % 10 ≤ 9 := by omega
  have h6 : q / 1000 % 1000 % 10 ≤ 9 := by omega
  have h7 : q % 1000 / 100 % 10 ≤ 9 := by omega
  have h8 : q % 1000 / 10 % 10 ≤ 9 := by omega
  have h9 : q % 1000 % 10 ≤ 9 := by omega
  simp only [fracVal, pad9, pad3, List.cons_append, List.nil_append, List.take,
    List.foldl, List.length_cons, List.length_nil]
  rw [digitVal_digitChar h1, digitVal_digitChar h2, digitVal_digitChar h3,
    digitVal_digitChar h4, digitVal_digitChar h5, digitVal_digitChar h6,
    digitVal_digitChar h7, digitVal_digitChar h8, digitVal_digitChar h9]
  norm_num
  omega

theorem readFrac_fracChars {n : Nat} (hn : n < 1000000000) (rest : List Char) :
    readFrac (fracChars n ++ '+' :: rest) = some (n, '+' :: rest) := by
  have hred : ∀ tl : List Char, readFrac ('.' :: tl) =
      (if (tl.takeWhile isDig).isEmpty then none
       else some (fracVal (tl.takeWhile isDig), tl.dropWhile isDig)) :=
    fun tl => rfl
  have hplus : isDig '+' = false := by decide
  unfold fracChars
  split
  · rename_i h0
    subst h0
    simp only [List.nil_append]
    rfl
  · split
    · rename_i h0 h6
      simp only [List.cons_append]
      rw [hred]
      have htw := takeWhile_digits_append (pad3_all_digits (n / 1000000)) hplus rest
      rw [htw.1, htw.2]
      rw [if_neg (by simp [pad3])]
      rw [fracVal_pad3 (by omega)]
      rw [show n / 1000000 * 1000000 = n from by omega]
    · split
      · rename_i h0 h6 h3
        simp only [List.cons_append]
        rw [hred]
        have htw := takeWhile_digits_append (pad6_all_digits (n / 1000)) hplus rest
        rw [htw.1, htw.2]
        rw [if_neg (by simp [pad6, pad3])]
        rw [fracVal_pad6 (by omega)]
        rw [show n / 1000 * 1000 = n from by omega]
      · simp only [List.cons_append]
        rw [hred]
        have htw := takeWhile_digits_append (pad9_all_digits n) hplus rest
        rw [htw.1, htw.2]
        rw [if_neg (by simp [pad9, pad3])]
        rw [fracVal_pad9 (by omega)]

theorem parseRfc3339_renderCivil {c : CivilTime} (hv : c.Valid)
    (hy0 : 0 ≤ c.year) (hy9 : c.year ≤ 9999) :
    parseRfc3339 (renderCivil c) =
      some ⟨c.year.toNat, c.month, c.day, c.hour, c.minute, c.second, c.nanos, 0⟩ := by
  obtain ⟨hm1, hm2, hd1, hd2, hh, hmi, hs, hn2, hleap⟩ := hv
  have hyt : c.year.toNat ≤ 9999 := by omega
  have hd31 : c.day ≤ 31 := le_trans hd2 daysInMonth_le
  have hytEq : ((c.year.toNat : Int)) = c.year := Int.toNat_of_nonneg hy0
  have hoffZ : readOffset ['+', '0', '0', ':', '0', '0'] = some ((0 : Int), []) := by
    rfl
  unfold renderCivil
  rw [show yearChars c.year = pad4 c.year.toNat from by
    unfold yearChars; rw [if_pos ⟨hy0, hy9⟩]]
  unfold parseRfc3339
  simp only [List.append_assoc, List.cons_append]
  rw [read4_pad4 hyt]
  rw [obind_some]
  dsimp only
  rw [expectCh_self]
  rw [obind_some]
  rw [read2_pad2 (by omega : c.month ≤ 99)]
  rw [obind_some]
  dsimp only
  rw [expectCh_self]
  rw [obind_some]
  rw [read2_pad2 (by omega : c.day ≤ 99)]
  rw [obind_some]
  dsimp only
  rw [if_pos (by decide : isSep 'T' = true)]
  rw [read2_pad2 (by omega : c.hour ≤ 99)]
  rw [obind_some]
  dsimp only
  rw [expectCh_self]
  rw [obind_some]
  rw [read2_pad2 (by omega : c.minute ≤ 99)]
  rw [obind_some]
  dsimp only
  rw [expectCh_self]
  rw [obind_some]
  by_cases hlp : 1000000000 ≤ c.nanos
  · have hs59 : c.second = 59 := hleap hlp
    rw [show secondChars c.second c.nanos =
        pad2 (c.second + 1) ++ fracChars (c.nanos - 1000000000) from by
      unfold secondChars; rw [if_pos hlp]]
    rw [List.append_assoc]
    rw [read2_pad2 (by omega : c.second + 1 ≤ 99)]
    rw [obind_some]
    dsimp only
    rw [readFrac_fracChars (by omega : c.nanos - 1000000000 < 1000000000)]
    rw [obind_some]
    dsimp only
    rw [hoffZ]
    rw [obind_some]
    dsimp only
    rw [if_pos ⟨rfl, hm1, hm2, hd1, by rw [hytEq]; exact hd2, hh, hmi,
      by omega⟩]
    rw [if_pos (by omega : c.second + 1 = 60)]
    simp only [Option.some.injEq, Rfc3339Parts.mk.injEq, true_and, and_true]
    exact ⟨by omega, by omega⟩
  · rw [show secondChars c.second c.nanos =
        pad2 c.second ++ fracChars c.nanos from by
      unfold secondChars; rw [if_neg hlp]]
    rw [List.append_assoc]
    rw [read2_pad2 (by omega : c.second ≤ 99)]
    rw [obind_some]
    dsimp only
    rw [readFrac_fracChars (by omega : c.nanos < 1000000000)]
    rw [obind_some]
    dsimp only
    rw [hoffZ]
    rw [obind_some]
    dsimp only
    rw [if_pos ⟨rfl, hm1, hm2, hd1, by rw [hytEq]; exact hd2, hh, hmi,
      by omega⟩]
    rw [if_neg (by omega : ¬ c.second = 60)]

theorem utcCivil_zero_offset {c : CivilTime} (hv : c.Valid) (hy0 : 0 ≤ c.year) :
    utcCivil ⟨c.year.toNat, c.month, c.day, c.hour, c.minute, c.second,
      c.nanos, 0⟩ = c := by
  obtain ⟨cy, cm, cd, ch, cmi, cs0, cn⟩ := c
  obtain ⟨hm1, hm2, hd1, hd2, hh, hmi, hs, hn, hln⟩ := hv
  dsimp only at hh hmi hy0 ⊢
  unfold utcCivil
  dsimp only
  rw [if_neg (by omega), if_neg (by omega)]
  simp only [CivilTime.mk.injEq, true_and, and_true]
  refine ⟨by omega, by omega, by omega⟩

/-- C4: amended round trip. For a non-bare-date string that decodes to a
`DateValue::DateTime`, *provided the resulting UTC civil year lies in
`0..=9999`* (the range chrono renders as plain four-digit RFC 3339 years),
re-formatting yields a string that (a) reparses as RFC 3339 to exactly the
same civil UTC fields with offset `+00:00` — hence denotes the identical
instant — and (b) textually ends in the normalized offset `+00:00`.
Outside that year range the formatted string is not RFC 3339 (see the
counterexample), so the claim is corrected by the year-range proviso. -/
theorem C4_instant_round_trip (s : String) (t : CivilTime)
    (hbare : isBareDate s.data = false)
    (hok : DateValue.fromString s = .ok (.DateTime t))
    (hy0 : 0 ≤ t.year) (hy9 : t.year ≤ 9999) :
    parseRfc3339 (DateValue.render (.DateTime t)).data =
      some ⟨t.year.toNat, t.month, t.day, t.hour, t.minute, t.second,
        t.nanos, 0⟩ ∧
    utcCivil ⟨t.year.toNat, t.month, t.day, t.hour, t.minute, t.second,
      t.nanos, 0⟩ = t ∧
    ∃ pre, (DateValue.render (.DateTime t)).data =
      pre ++ ['+', '0', '0', ':', '0', '0'] := by
  unfold DateValue.fromString DateValue.fromChars at hok
  rw [if_neg (by simp [hbare])] at hok
  cases hp : parseRfc3339 s.data <;> rw [hp] at hok
  · simp at hok
  · rename_i p
    simp only [Except.ok.injEq, DateValue.DateTime.injEq] at hok
    subst hok
    obtain ⟨hy, hm1, hm2, hd1, hd2, hhh, hmi, hs, hn, hln, ho1, ho2⟩ :=
      parseRfc3339_valid hp
    have hvalid : (utcCivil p).Valid :=
      utcCivil_valid hm1 hm2 hd1 hd2 hhh hmi hs hn hln ho1 ho2
    refine ⟨parseRfc3339_renderCivil hvalid hy0 hy9,
      utcCivil_zero_offset hvalid hy0, ?_⟩
    exact ⟨yearChars (utcCivil p).year ++ '-' :: pad2 (utcCivil p).month ++
      '-' :: pad2 (utcCivil p).day ++ 'T' :: pad2 (utcCivil p).hour ++
      ':' :: pad2 (utcCivil p).minute ++
      ':' :: secondChars (utcCivil p).second (utcCivil p).nanos,
      by simp [DateValue.render, DateValue.renderChars, renderCivil,
        List.append_assoc]⟩

/-- C4 (counterexample): `"0000-01-01T00:00:00+00:01"` is a valid RFC 3339
timestamp and not a bare date; it decodes successfully to the UTC instant
`-0001-12-31T23:59:00Z` (year −1), but formatting that instant produces
`"-0001-12-31T23:59:00+00:00"`, which is not an RFC 3339 string at all
(chrono prints the negative year in the signed expanded form, which the
RFC 3339 grammar — and chrono's own parser — rejects). So decode-then-format
does not always yield an RFC 3339 string denoting the same instant. -/
theorem C4_instant_counterexample :
    isBareDate ("0000-01-01T00:00:00+00:01").data = false ∧
    DateValue.fromString "0000-01-01T00:00:00+00:01" =
      .ok (.DateTime ⟨-1, 12, 31, 23, 59, 0, 0⟩) ∧
    DateValue.render (.DateTime ⟨-1, 12, 31, 23, 59, 0, 0⟩) =
      "-0001-12-31T23:59:00+00:00" ∧
    parseRfc3339 ("-0001-12-31T23:59:00+00:00").data = none :=
  ⟨rfl, rfl, rfl, rfl⟩

/-- C4 (witness): the amended property at `"2023-05-17T12:30:45+02:30"`,
whose UTC instant is `2023-05-17T10:00:45Z`. -/
theorem C4_instant_round_trip_witness :
    isBareDate ("2023-05-17T12:30:45+02:30").data = false ∧
    DateValue.fromString "2023-05-17T12:30:45+02:30" =
      .ok (.DateTime ⟨2023, 5, 17, 10, 0, 45, 0⟩) ∧
    (parseRfc3339
        (DateValue.render (.DateTime ⟨2023, 5, 17, 10, 0, 45, 0⟩)).data =
      some ⟨2023, 5, 17, 10, 0, 45, 0, 0⟩ ∧
    utcCivil ⟨2023, 5, 17, 10, 0, 45, 0, 0⟩ = ⟨2023, 5, 17, 10, 0, 45, 0⟩ ∧
    ∃ pre, (DateValue.render (.DateTime ⟨2023, 5, 17, 10, 0, 45, 0⟩)).data =
      pre ++ ['+', '0', '0', ':', '0', '0']) :=
  ⟨rfl, rfl,
    C4_instant_round_trip "2023-05-17T12:30:45+02:30"
      ⟨2023, 5, 17, 10, 0, 45, 0⟩ rfl rfl (by decide) (by decide)⟩

end NotionClient
